import Mathlib

/-!
Verification development for the MongoDB-style query compiler of the
`pg-orm` repository (`src/lib/mongo-converter.ts`) and the model-layer
statement assembly of `src/lib/schema.ts` (with `renumberPlaceholders`
from the utils module).

The JavaScript/TypeScript source is shallowly embedded:

* JS runtime values that can occur in a query/update document are the
  inductive type `JVal`.  JS numbers (IEEE doubles) are modelled as
  rationals; all numeric values exercised by the claims are small
  integers or simple fractions for which this model agrees with JS
  semantics (`Number.isInteger q` becomes `q.den = 1`,
  `String(q).includes "."` becomes `q.den ≠ 1`, which coincides with JS
  for every double whose decimal rendering is non-exponential).
* JS objects are association lists in property order (`Object.entries`
  order for the objects built by the test-suite and the claims).
* The converter's recursion is realised with an explicit fuel
  parameter so that every definition is structurally recursive and
  kernel-reducible; the public entry points instantiate the fuel with a
  bound that is provably sufficient (`convOkFuel` below), so fuel
  exhaustion is unreachable from the API.
* JS exceptions (`throw`, `TypeError` from `Object.entries(null)` or
  from calling `.includes` on a non-string) are modelled with `Except`.
* SQL is emitted as `String`s, mirroring the template-literal
  concatenations of the source expression by expression.
-/

set_option maxRecDepth 40000

namespace PgOrm

/-! ## Character and string level helpers (kernel-reducible) -/

/-- digit character for a value `n < 10`. -/
def digitChar (n : Nat) : Char := Char.ofNat (48 + n)

/-- numeric value of a digit character. -/
def digVal (c : Char) : Nat := c.toNat - 48

/-- value of a digit string, most significant digit first
(what JS `parseInt` produces on an all-digit string). -/
def natOfDigits (l : List Char) : Nat := l.foldl (fun a c => 10 * a + digVal c) 0

/-- fuelled base-10 rendering, most significant digit first. -/
def natDigsF : Nat → Nat → List Char
  | 0, _ => []
  | f + 1, n => if n < 10 then [digitChar n] else natDigsF f (n / 10) ++ [digitChar (n % 10)]

/-- base-10 rendering of a natural number (JS `String(n)` for naturals). -/
def natStr (n : Nat) : String := ⟨natDigsF (n + 1) n⟩

/-- JS `String(n)` for an integer. -/
def intStr (n : Int) : String := (if n < 0 then "-" else "") ++ natStr n.natAbs

/-- fuelled decimal expansion of a fraction `rem / den` (`rem < den`). -/
def fracDigsF : Nat → Nat → Nat → List Char
  | 0, _, _ => []
  | f + 1, rem, den =>
    if rem = 0 then [] else digitChar (rem * 10 / den) :: fracDigsF f (rem * 10 % den) den

/-- JS `String(v)` for the number `v` (also `JSON.stringify(v)` for numbers):
integral values render without a decimal point, fractional values with one.
Matches JS for every value whose JS rendering is plain decimal. -/
def jsNumToString (q : Rat) : String :=
  if q.den = 1 then intStr q.num
  else
    (if q.num < 0 then "-" else "") ++ natStr (q.num.natAbs / q.den) ++ "." ++
      ⟨fracDigsF 64 (q.num.natAbs % q.den) q.den⟩

/-- split a character list at every occurrence of `sep`
(JS `String.prototype.split` with a single-character separator). -/
def splitCh (sep : Char) : List Char → List (List Char)
  | [] => [[]]
  | c :: rest =>
    match splitCh sep rest with
    | [] => [[]]
    | h :: t => if c = sep then [] :: h :: t else (c :: h) :: t

/-- JS `s.split(sep)` for a one-character separator. -/
def jsSplit (s : String) (sep : Char) : List String := (splitCh sep s.data).map (⟨·⟩)

/-- JS `arr.join(sep)`. -/
def joinSep (sep : String) : List String → String
  | [] => ""
  | [x] => x
  | x :: rest => x ++ sep ++ joinSep sep rest

/-- replace every occurrence of the character `c` by `rep`
(JS `s.replace(/c/g, rep)` for a single literal character). -/
def replCh (c : Char) (rep : List Char) (s : String) : String :=
  ⟨(s.data.map (fun d => if d = c then rep else [d])).flatten⟩

/-- does the string start with `'$'`? (JS `key.startsWith('$')`). -/
def startsDollar (s : String) : Bool :=
  match s.data with
  | '$' :: _ => true
  | _ => false

/-- does the string contain the character `c`? (JS `s.includes(c)`). -/
def containsCh (s : String) (c : Char) : Bool := s.data.contains c

/-- JS `/^\d+$/.test(part)`: non-empty and all ASCII digits. -/
def isNumericStr (s : String) : Bool := !s.data.isEmpty && s.data.all Char.isDigit

/-- JS `String.prototype.trim`: drop whitespace from both ends. -/
def jsTrim (s : String) : String :=
  ⟨((s.data.dropWhile Char.isWhitespace).reverse.dropWhile Char.isWhitespace).reverse⟩

/-! ## JS values -/

/-- a JS runtime value as it can occur in a query or update document. -/
inductive JVal where
  | jnull
  | undef
  | boolean (b : Bool)
  | num (q : Rat)
  | str (s : String)
  | arr (elems : List JVal)
  | obj (fields : List (String × JVal))

open JVal

mutual
/-- decidable equality on `JVal` (structural, kernel-reducible). -/
def JVal.deq : (a b : JVal) → Decidable (a = b)
  | .jnull, .jnull => .isTrue rfl
  | .undef, .undef => .isTrue rfl
  | .boolean a, .boolean b =>
    if h : a = b then .isTrue (by rw [h]) else .isFalse (by intro he; cases he; exact h rfl)
  | .num a, .num b =>
    if h : a = b then .isTrue (by rw [h]) else .isFalse (by intro he; cases he; exact h rfl)
  | .str a, .str b =>
    if h : a = b then .isTrue (by rw [h]) else .isFalse (by intro he; cases he; exact h rfl)
  | .arr a, .arr b =>
    match JVal.deqL a b with
    | .isTrue h => .isTrue (by rw [h])
    | .isFalse h => .isFalse (by intro he; cases he; exact h rfl)
  | .obj a, .obj b =>
    match JVal.deqF a b with
    | .isTrue h => .isTrue (by rw [h])
    | .isFalse h => .isFalse (by intro he; cases he; exact h rfl)
  | .jnull, .undef | .jnull, .boolean _ | .jnull, .num _ | .jnull, .str _
  | .jnull, .arr _ | .jnull, .obj _
  | .undef, .jnull | .undef, .boolean _ | .undef, .num _ | .undef, .str _
  | .undef, .arr _ | .undef, .obj _
  | .boolean _, .jnull | .boolean _, .undef | .boolean _, .num _ | .boolean _, .str _
  | .boolean _, .arr _ | .boolean _, .obj _
  | .num _, .jnull | .num _, .undef | .num _, .boolean _ | .num _, .str _
  | .num _, .arr _ | .num _, .obj _
  | .str _, .jnull | .str _, .undef | .str _, .boolean _ | .str _, .num _
  | .str _, .arr _ | .str _, .obj _
  | .arr _, .jnull | .arr _, .undef | .arr _, .boolean _ | .arr _, .num _
  | .arr _, .str _ | .arr _, .obj _
  | .obj _, .jnull | .obj _, .undef | .obj _, .boolean _ | .obj _, .num _
  | .obj _, .str _ | .obj _, .arr _ => .isFalse (fun h => nomatch h)

/-- decidable equality on lists of `JVal`. -/
def JVal.deqL : (a b : List JVal) → Decidable (a = b)
  | [], [] => .isTrue rfl
  | [], _ :: _ => .isFalse (fun h => nomatch h)
  | _ :: _, [] => .isFalse (fun h => nomatch h)
  | a :: as, b :: bs =>
    match JVal.deq a b with
    | .isTrue h1 =>
      match JVal.deqL as bs with
      | .isTrue h2 => .isTrue (by rw [h1, h2])
      | .isFalse h2 => .isFalse (by intro he; cases he; exact h2 rfl)
    | .isFalse h1 => .isFalse (by intro he; cases he; exact h1 rfl)

/-- decidable equality on JS-object field lists. -/
def JVal.deqF : (a b : List (String × JVal)) → Decidable (a = b)
  | [], [] => .isTrue rfl
  | [], _ :: _ => .isFalse (fun h => nomatch h)
  | _ :: _, [] => .isFalse (fun h => nomatch h)
  | (k, a) :: as, (l, b) :: bs =>
    if hk : k = l then
      match JVal.deq a b with
      | .isTrue h1 =>
        match JVal.deqF as bs with
        | .isTrue h2 => .isTrue (by rw [hk, h1, h2])
        | .isFalse h2 => .isFalse (by intro he; cases he; exact h2 rfl)
      | .isFalse h1 => .isFalse (by intro he; cases he; exact h1 rfl)
    else .isFalse (by intro he; cases he; exact hk rfl)
end

instance : DecidableEq JVal := JVal.deq

mutual
/-- structural size of a value (leaves, strings included, weigh zero). -/
def qsize : JVal → Nat
  | .obj fs => 1 + psize fs
  | .arr xs => 1 + lsize xs
  | _ => 1

/-- structural size of a value list. -/
def lsize : List JVal → Nat
  | [] => 0
  | x :: xs => 1 + qsize x + lsize xs

/-- structural size of a field list. -/
def psize : List (String × JVal) → Nat
  | [] => 0
  | (_, v) :: r => 1 + qsize v + psize r
end

/-- JS truthiness of a value. -/
def jsTruthy : JVal → Bool
  | .jnull | .undef => false
  | .boolean b => b
  | .num q => q ≠ 0
  | .str s => s ≠ ""
  | .arr _ | .obj _ => true

/-- index/value pairs of a list, with stringified indices. -/
def idxPairs (xs : List JVal) : List (String × JVal) :=
  (xs.enum).map (fun p => (natStr p.1, p.2))

/-- the failure modes of compilation: the `$where` hard error thrown by
`#processQueryObject`, a JS `TypeError` (`Object.entries` on
`null`/`undefined`, or `.includes` on a non-string regex flag value),
the model layer's empty-destructive and missing-WHERE hard errors, and
fuel exhaustion (unreachable from the public entry points). -/
inductive CErr where
  | whereUnsupported
  | typeError
  | emptyDestructive
  | noWhereClause
  | outOfFuel
deriving DecidableEq

/-- decidable equality for `Except` results. -/
instance {ε α : Type} [DecidableEq ε] [DecidableEq α] : DecidableEq (Except ε α)
  | .ok a, .ok b =>
    if h : a = b then .isTrue (by rw [h]) else .isFalse (by intro he; cases he; exact h rfl)
  | .error a, .error b =>
    if h : a = b then .isTrue (by rw [h]) else .isFalse (by intro he; cases he; exact h rfl)
  | .ok _, .error _ => .isFalse (fun h => nomatch h)
  | .error _, .ok _ => .isFalse (fun h => nomatch h)

/-- JS `Object.entries(v)`: fields of an object, index/value pairs of an
array, index/character pairs of a string, `[]` for other primitives, and
a `TypeError` for `null`/`undefined`. -/
def entriesOfE : JVal → Except CErr (List (String × JVal))
  | .jnull | .undef => .error .typeError
  | .obj fs => .ok fs
  | .arr xs => .ok (idxPairs xs)
  | .str s => .ok ((s.data.enum).map fun p => (natStr p.1, JVal.str ⟨[p.2]⟩))
  | .num _ | .boolean _ => .ok []

/-! ## `JSON.stringify` -/

/-- JSON escaping of one character inside a double-quoted JSON string. -/
def jsonEsc (c : Char) : List Char :=
  if c = '"' then ['\\', '"']
  else if c = '\\' then ['\\', '\\']
  else if c = '\n' then ['\\', 'n']
  else if c = '\r' then ['\\', 'r']
  else if c = '\t' then ['\\', 't']
  else if c.toNat = 8 then ['\\', 'b']
  else if c.toNat = 12 then ['\\', 'f']
  else if c.toNat < 32 then
    ['\\', 'u', '0', '0', digitChar (c.toNat / 16), digitChar (c.toNat % 16)]
  else [c]

/-- `JSON.stringify` of a JS string. -/
def jsonStrLit (s : String) : String := ⟨'"' :: (s.data.map jsonEsc).flatten ++ ['"']⟩

mutual
/-- `JSON.stringify(v)`; `none` models the JS result `undefined`. -/
def jsonStringify : JVal → Option String
  | .undef => none
  | .jnull => some "null"
  | .boolean b => some (if b then "true" else "false")
  | .num q => some (jsNumToString q)
  | .str s => some (jsonStrLit s)
  | .arr xs => some ("[" ++ joinSep "," (jsonStringifyArr xs) ++ "]")
  | .obj fs => some ("\x7b" ++ joinSep "," (jsonStringifyObj fs) ++ "\x7d")

/-- array elements: `undefined` renders as `null`. -/
def jsonStringifyArr : List JVal → List String
  | [] => []
  | x :: xs => ((jsonStringify x).getD "null") :: jsonStringifyArr xs

/-- object members: properties whose value stringifies to `undefined` are skipped. -/
def jsonStringifyObj : List (String × JVal) → List String
  | [] => []
  | (k, v) :: fs =>
    match jsonStringify v with
    | none => jsonStringifyObj fs
    | some s => (jsonStrLit k ++ ":" ++ s) :: jsonStringifyObj fs
end

/-! ## Converter: pure helpers (`mongo-converter.ts`) -/

/-- mirrors `#quoteIdent`: double-quote an identifier, doubling embedded quotes. -/
def quoteIdent (s : String) : String := "\"" ++ replCh '"' ['"', '"'] s ++ "\""

/-- mirrors `#quoteLiteral`: single-quote a literal, doubling embedded quotes. -/
def quoteLiteral (s : String) : String := "'" ++ replCh '\'' ['\'', '\''] s ++ "'"

/-- mirrors `#sqlValue`: inline a JS value into SQL text.  Strings are
single-quoted with quote doubling; numbers and booleans are stringified
raw; arrays and objects are single-quoted `JSON.stringify` output
(without any quote doubling). -/
def sqlValue : JVal → String
  | .undef | .jnull => "NULL"
  | .str s => "'" ++ replCh '\'' ['\'', '\''] s ++ "'"
  | .num q => jsNumToString q
  | .boolean b => if b then "true" else "false"
  | .arr xs => "'" ++ ((jsonStringify (.arr xs)).getD "undefined") ++ "'"
  | .obj fs => "'" ++ ((jsonStringify (.obj fs)).getD "undefined") ++ "'"

/-- mirrors `#addParam`: push the value, return its `$N` placeholder. -/
def addParam (v : JVal) (ps : List JVal) : String × List JVal :=
  ("$" ++ natStr (ps.length + 1), ps ++ [v])

/-- mirrors `#isLogicalOperator`. -/
def isLogicalOp (k : String) : Bool :=
  k = "$and" || k = "$or" || k = "$nor" || k = "$not"

/-- mirrors `#isOperatorObject`: a non-null non-array object with some
key starting with `$`. -/
def isOperatorObject : JVal → Bool
  | .obj fs => fs.any (fun kv => startsDollar kv.1)
  | _ => false

/-- mirrors `#buildJsonbPath`: the template literal
`` `'{'${segments.join(',')}'}'` `` — note the stray inner single
quotes: the emitted text is `'{'` ++ segments ++ `'}'`, not
`'{` ++ segments ++ `}'`. -/
def buildJsonbPath (fieldPath : String) : String :=
  "'\x7b'" ++ joinSep "," ((jsSplit fieldPath '.').map jsonStrLit) ++ "'\x7d'"

/-- does this suffix fully match the regex alternative
`->'[^']+'` or `->\d+` (used by the dotted-path base computation)? -/
def tailSeg : List Char → Bool
  | '-' :: '>' :: rest =>
    match rest with
    | '\'' :: mid =>
      match mid.reverse with
      | '\'' :: core => !core.isEmpty && core.all (· ≠ '\'')
      | _ => false
    | _ => !rest.isEmpty && rest.all Char.isDigit
  | _ => false

/-- mirrors `currentJsonPath.match(/^(.*)(->'[^']+'|->\d+)$/)`: with a
greedy `(.*)` the match keeps the longest prefix whose remainder fully
matches the final-segment alternative; `none` when the regex fails. -/
def basePathOf (s : String) : Option String :=
  match ((List.range (s.data.length + 1)).reverse.find?
      (fun i => tailSeg (s.data.drop i))) with
  | some i => some ⟨s.data.take i⟩
  | none => none

/-- mirrors the dotted-key path construction of `#processQueryObject`
(lines 168–184): returns `(accessPath, jsonPath)`. -/
def dottedGo (root : String) (cur acc : String) : List String → String × String
  | [] => (acc, cur)
  | p :: rest =>
    let isNum := isNumericStr p
    let cur' := if isNum then cur ++ "->" ++ p else cur ++ "->'" ++ p ++ "'"
    if rest.isEmpty then
      let base := (basePathOf cur').getD root
      let acc' := if isNum then base ++ "->>" ++ p else base ++ "->>'" ++ p ++ "'"
      (acc', cur')
    else dottedGo root cur' acc rest

/-- mirrors the dotted-key path construction of `#processQueryObject`
(lines 168–184): returns `(accessPath, jsonPath)`. -/
def dottedPaths (key jsonField parentPath : String) : String × String :=
  let root := if parentPath ≠ "" then parentPath else jsonField
  dottedGo root root "" (jsSplit key '.')

/-- mirrors the single-key path construction of `#processQueryObject`
(lines 194–195): returns `(accessPath, jsonPath)`. -/
def plainPaths (key jsonField parentPath : String) : String × String :=
  if parentPath ≠ "" then
    (parentPath ++ "->>'" ++ key ++ "'", parentPath ++ "->'" ++ key ++ "'")
  else
    (jsonField ++ "->>'" ++ key ++ "'", jsonField ++ "->'" ++ key ++ "'")

/-- mirrors `#createEqualityCondition`. -/
def createEqualityCondition (accessPath jsonPath : String) (v : JVal) (ps : List JVal) :
    String × List JVal :=
  match v with
  | .jnull => ("(" ++ jsonPath ++ " IS NULL OR " ++ jsonPath ++ " = 'null'::jsonb)", ps)
  | .obj [] => (jsonPath ++ "::jsonb = '{}'::jsonb", ps)
  | .arr xs =>
    let (ph, ps') := addParam (.arr xs) ps
    (jsonPath ++ "::jsonb = " ++ ph ++ "::jsonb", ps')
  | .boolean b =>
    let (ph, ps') := addParam (.boolean b) ps
    ("(" ++ accessPath ++ ")::boolean = " ++ ph, ps')
  | .num q =>
    let (ph, ps') := addParam (.num q) ps
    let cast := if q.den = 1 then "integer" else "numeric"
    ("(" ++ accessPath ++ ")::" ++ cast ++ " = " ++ ph, ps')
  | w =>
    let (ph, ps') := addParam w ps
    (accessPath ++ " = " ++ ph, ps')

/-- inlined comparison for `$gt`/`$gte`/`$lt`/`$lte`: numeric operands
compare against `(accessPath)::numeric`, everything else against the
bare access path; the operand is inlined via `#sqlValue`. -/
def cmpClause (accessPath opSql : String) (v : JVal) : String :=
  match v with
  | .num q => "(" ++ accessPath ++ ")::numeric " ++ opSql ++ " " ++ sqlValue (.num q)
  | w => accessPath ++ " " ++ opSql ++ " " ++ sqlValue w

/-- JS `typeof`. -/
def typeofStr : JVal → String
  | .jnull => "object"
  | .undef => "undefined"
  | .boolean _ => "boolean"
  | .num _ => "number"
  | .str _ => "string"
  | .arr _ => "object"
  | .obj _ => "object"

/-- the five `$in` groups of `#handleComparisonOperator` in their fixed
order: integer, number (decimal-rendered), boolean, string, object.
A numeric element goes to `number` exactly when `String(val)` contains a
`.`, i.e. when the value is fractional. -/
structure InGroups where
  ints : List JVal := []
  nums : List JVal := []
  bools : List JVal := []
  strs : List JVal := []
  objs : List JVal := []

/-- classify the non-null `$in` elements (mirrors the `forEach`). -/
def inGroups : List JVal → InGroups
  | [] => {}
  | v :: rest =>
    let g := inGroups rest
    match v with
    | .num q => if q.den ≠ 1 then { g with nums := v :: g.nums } else { g with ints := v :: g.ints }
    | .boolean _ => { g with bools := v :: g.bools }
    | .str _ => { g with strs := v :: g.strs }
    | .arr _ | .obj _ | .jnull => { g with objs := v :: g.objs }
    | .undef => g

/-- if the group is non-empty, append one parameter holding the group
array and one condition built from its placeholder. -/
def condStep (mk : String → String) (grp : List JVal)
    (acc : List String × List JVal) : List String × List JVal :=
  if grp.isEmpty then acc
  else
    let (ph, ps') := addParam (.arr grp) acc.2
    (acc.1 ++ [mk ph], ps')

/-- `$nin` grouping: `groups[typeof val] = [...(groups[typeof val] || []), val]`
builds an association list keyed by `typeof`, in first-seen key order. -/
def addToGroup (key : String) (v : JVal) :
    List (String × List JVal) → List (String × List JVal)
  | [] => [(key, [v])]
  | (k, vs) :: rest =>
    if k = key then (k, vs ++ [v]) :: rest else (k, vs) :: addToGroup key v rest

/-- group values by `typeof` in first-seen order. -/
def groupByType (l : List JVal) : List (String × List JVal) :=
  l.foldl (fun acc v => addToGroup (typeofStr v) v acc) []

/-- the per-type `$nin` condition loop, threading the parameter vector. -/
def ninConds (accessPath jsonPath : String) :
    List (String × List JVal) → List JVal → List String × List JVal
  | [], ps => ([], ps)
  | (t, vs) :: rest, ps =>
    let (ph, ps') := addParam (.arr vs) ps
    let cond :=
      if t = "number" then
        let cast := if vs.any (fun v => match v with | .num q => q.den ≠ 1 | _ => true)
          then "numeric" else "integer"
        "(" ++ accessPath ++ ")::" ++ cast ++ " != ALL(" ++ ph ++ ")"
      else if t = "boolean" then "(" ++ accessPath ++ ")::boolean != ALL(" ++ ph ++ ")"
      else if t = "object" then jsonPath ++ "::jsonb <> ALL(" ++ ph ++ "::jsonb[])"
      else accessPath ++ " != ALL(" ++ ph ++ ")"
    let (cs, ps'') := ninConds accessPath jsonPath rest ps'
    (cond :: cs, ps'')

/-- is this a `/pattern/flags` flag character? -/
def flagChar (c : Char) : Bool :=
  c = 'g' || c = 'i' || c = 'm' || c = 'y' || c = 'u' || c = 's'

/-- match `/^\/(.+)\/([gimyus]*)$/` against the string: with a greedy
`(.+)` the pattern body extends to the last `/` whose suffix is all flag
characters (and whose body is non-empty). -/
def regexParse (s : String) : Option (String × String) :=
  match s.data with
  | '/' :: rest =>
    match ((List.range rest.length).reverse.find? fun j =>
        rest.get? j = some '/' && 1 ≤ j && (rest.drop (j + 1)).all flagChar) with
    | some j => some (⟨rest.take j⟩, ⟨rest.drop (j + 1)⟩)
    | none => none
  | _ => none

/-- JS guard `operand.startsWith('/') && operand.lastIndexOf('/') > 0`. -/
def regexSlashGuard (s : String) : Bool :=
  match s.data with
  | '/' :: rest => rest.contains '/'
  | _ => false

/-- the `$type` operand table (identity on the six supported names). -/
def typeMapOk (s : String) : Bool :=
  s = "string" || s = "number" || s = "boolean" || s = "array" || s = "object" || s = "null"

/-- an intermediate result of the `#processQueryObject` entry loop:
either the loop returned `'FALSE'` early (a logical operator
short-circuit), or it collected the field clauses together with the
`isTrueResult` flag. -/
inductive PqRes where
  | shortFalse (ps : List JVal)
  | collected (clauses : List String) (isTrue : Bool) (ps : List JVal)

/-- the `'FALSE'/'TRUE'/NOT (...)` wrap-up shared by the two `$not`
handlers of the source. -/
def notWrapR (inner : String) (ps : List JVal) : Except CErr (String × List JVal) :=
  if inner = "" || inner = "TRUE" then .ok ("FALSE", ps)
  else if inner = "FALSE" then .ok ("TRUE", ps)
  else .ok ("NOT (" ++ inner ++ ")", ps)

/-! ## Converter: the recursive core (`mongo-converter.ts`, fuelled)

The source recursion descends into strictly smaller JS values at every
step; the fuel parameter makes that termination argument explicit and
keeps every definition kernel-reducible.  `convOkFuel` below proves a
size bound under which fuel can never run out, and the public entry
points instantiate the fuel with that bound. -/

mutual

/-- mirrors `#processQueryObject`: run the entry loop, then the
`FALSE` / `TRUE` / join post-processing. -/
def processQueryObject (fuel : Nat) (entries : List (String × JVal))
    (jsonField parentPath : String) (ps : List JVal) :
    Except CErr (String × List JVal) :=
  match fuel with
  | 0 => .error .outOfFuel
  | fuel + 1 => do
    match ← pqoEntries fuel entries jsonField parentPath ps with
  | PqRes.shortFalse ps' => return ("FALSE", ps')
  | PqRes.collected clauses itr ps' =>
    if clauses.contains "FALSE" then return ("FALSE", ps')
    else
      let valid := clauses.filter (fun c => c ≠ "" && c ≠ "TRUE")
      if valid.isEmpty then return ((if itr then "TRUE" else ""), ps')
      else return (joinSep " AND " valid, ps')

/-- mirrors the `for (const [key, value] of Object.entries(query))`
loop of `#processQueryObject`, threading the parameter vector. -/
def pqoEntries (fuel : Nat) (entries : List (String × JVal))
    (jsonField parentPath : String) (ps : List JVal) : Except CErr PqRes :=
  match fuel, entries with
  | _, [] => .ok (.collected [] false ps)
  | 0, _ :: _ => .error .outOfFuel
  | fuel + 1, (key, value) :: rest =>
    if key = "$where" then .error .whereUnsupported
    else if key = "$text" then do
      match ← pqoEntries fuel rest jsonField parentPath ps with
      | PqRes.shortFalse ps' => return .shortFalse ps'
      | PqRes.collected cl _ ps' => return .collected cl true ps'
    else if isLogicalOp key then do
      let ctx := if parentPath ≠ "" then parentPath else jsonField
      let (lc, ps1) ← handleLogicalOperator fuel key value ctx parentPath ps
      if lc = "TRUE" then
        match ← pqoEntries fuel rest jsonField parentPath ps1 with
        | PqRes.shortFalse ps' => return .shortFalse ps'
        | PqRes.collected cl _ ps' => return .collected cl true ps'
      else if lc = "FALSE" then return (.shortFalse ps1)
      else if lc = "" then pqoEntries fuel rest jsonField parentPath ps1
      else
        match ← pqoEntries fuel rest jsonField parentPath ps1 with
        | PqRes.shortFalse ps' => return .shortFalse ps'
        | PqRes.collected cl it ps' => return .collected (lc :: cl) it ps'
    else if !(startsDollar key) then
      let (ap, jp) :=
        if containsCh key '.' then dottedPaths key jsonField parentPath
        else plainPaths key jsonField parentPath
      let opObj : Option (List (String × JVal)) :=
        match value with
        | .obj fs => if fs.any (fun kv => startsDollar kv.1) then some fs else none
        | _ => none
      match opObj with
      | some fs => do
        let (fc, ps1) ← processFieldOperators fuel fs ap jp ps
        let crt := fc = "TRUE"
        let wrapped :=
          if ((fs.map Prod.fst).filter (fun k => k ≠ "$options")).length > 1
          then "(" ++ fc ++ ")" else fc
        match ← pqoEntries fuel rest jsonField parentPath ps1 with
        | PqRes.shortFalse ps' => return .shortFalse ps'
        | PqRes.collected cl it ps' =>
          if fc ≠ "" && fc ≠ "TRUE" then return .collected (wrapped :: cl) (it || crt) ps'
          else return .collected cl (it || crt) ps'
      | none => do
        let (fc, ps1) := createEqualityCondition ap jp value ps
        match ← pqoEntries fuel rest jsonField parentPath ps1 with
        | PqRes.shortFalse ps' => return .shortFalse ps'
        | PqRes.collected cl it ps' =>
          if fc ≠ "" && fc ≠ "TRUE" then return .collected (fc :: cl) it ps'
          else return .collected cl it ps'
    else pqoEntries fuel rest jsonField parentPath ps

/-- mirrors `#processFieldOperators`: run the operator loop, then the
`TRUE`-vs-join wrap-up.  The `$options` sibling is looked up once from
the whole operator object, as in the source. -/
def processFieldOperators (fuel : Nat) (ops : List (String × JVal))
    (accessPath jsonPath : String) (ps : List JVal) :
    Except CErr (String × List JVal) :=
  match fuel with
  | 0 => .error .outOfFuel
  | fuel + 1 => do
    let (fieldClauses, opTrue, ps') ←
      pfoOps fuel ops accessPath jsonPath (ops.lookup "$options") ps
    if opTrue && fieldClauses.isEmpty then return ("TRUE", ps')
    else return (joinSep " AND " fieldClauses, ps')

/-- mirrors the operator loop of `#processFieldOperators`; returns the
collected clauses and the `operatorReturnedTrue` flag. -/
def pfoOps (fuel : Nat) (rem : List (String × JVal)) (accessPath jsonPath : String)
    (regexOpts : Option JVal) (ps : List JVal) :
    Except CErr (List String × Bool × List JVal) :=
  match fuel, rem with
  | _, [] => .ok ([], false, ps)
  | 0, _ :: _ => .error .outOfFuel
  | fuel + 1, (op, operand) :: rest =>
    if op = "$not" then do
      let (nc, ps1) ← handleNotOperator fuel operand accessPath jsonPath ps
      let (cs, t, ps') ← pfoOps fuel rest accessPath jsonPath regexOpts ps1
      if nc ≠ "" then return (nc :: cs, t, ps') else return (cs, t, ps')
    else do
      let (c, ps1) ← handleComparisonOperator fuel op operand accessPath jsonPath regexOpts ps
      let (cs, t, ps') ← pfoOps fuel rest accessPath jsonPath regexOpts ps1
      if c = "TRUE" then return (cs, true, ps')
      else if c ≠ "" then return (c :: cs, t, ps')
      else return (cs, t, ps')

/-- mirrors `#handleComparisonOperator`. -/
def handleComparisonOperator (fuel : Nat) (op : String) (operand : JVal)
    (accessPath jsonPath : String) (regexOptions : Option JVal) (ps : List JVal) :
    Except CErr (String × List JVal) :=
  match fuel with
  | 0 => .error .outOfFuel
  | fuel + 1 =>
    if op = "$eq" then
      match operand with
      | .undef => .ok (jsonPath ++ " IS NULL", ps)
      | v => .ok (createEqualityCondition accessPath jsonPath v ps)
    else if op = "$ne" then
      match operand with
      | .undef => .ok (jsonPath ++ " IS NOT NULL", ps)
      | .jnull =>
        .ok ("(" ++ jsonPath ++ " IS NOT NULL AND " ++ jsonPath ++ " != 'null'::jsonb)", ps)
      | .obj [] => .ok (jsonPath ++ "::jsonb != '{}'::jsonb", ps)
      | v =>
        let (ph, ps') := addParam v ps
        match v with
        | .boolean _ => .ok ("(" ++ accessPath ++ ")::boolean IS DISTINCT FROM " ++ ph, ps')
        | .arr _ => .ok (jsonPath ++ "::jsonb != " ++ ph ++ "::jsonb", ps')
        | .num q =>
          .ok ("(" ++ accessPath ++ ")::" ++ (if q.den = 1 then "integer" else "numeric") ++
            " IS DISTINCT FROM " ++ ph, ps')
        | _ => .ok (accessPath ++ " IS DISTINCT FROM " ++ ph, ps')
    else if op = "$gt" then .ok (cmpClause accessPath ">" operand, ps)
    else if op = "$gte" then .ok (cmpClause accessPath ">=" operand, ps)
    else if op = "$lt" then .ok (cmpClause accessPath "<" operand, ps)
    else if op = "$lte" then .ok (cmpClause accessPath "<=" operand, ps)
    else if op = "$in" then
      match operand with
      | .arr [] => .ok ("FALSE", ps)
      | .arr elems =>
        let hasNull := elems.contains JVal.jnull
        let nonNull := elems.filter (fun v => v ≠ JVal.jnull)
        let nullCheck := "(" ++ jsonPath ++ " IS NULL OR " ++ jsonPath ++ " = 'null'::jsonb)"
        if nonNull.isEmpty then .ok ((if hasNull then nullCheck else "FALSE"), ps)
        else
          let g := inGroups nonNull
          let acc1 := condStep
            (fun ph => "(" ++ accessPath ++ ")::integer = ANY(" ++ ph ++ ")") g.ints ([], ps)
          let acc2 := condStep
            (fun ph => "(" ++ accessPath ++ ")::numeric = ANY(" ++ ph ++ ")") g.nums acc1
          let acc3 := condStep
            (fun ph => "(" ++ accessPath ++ ")::boolean = ANY(" ++ ph ++ ")") g.bools acc2
          let acc4 := condStep (fun ph => accessPath ++ " = ANY(" ++ ph ++ ")") g.strs acc3
          let acc5 := condStep
            (fun ph => jsonPath ++ "::jsonb = ANY(" ++ ph ++ "::jsonb[])") g.objs acc4
          let conditions := acc5.1
          let joined := joinSep " OR " conditions
          let nonNullCondition := if conditions.length > 1 then "(" ++ joined ++ ")" else joined
          if hasNull then
            if nonNullCondition ≠ "" then
              .ok ("((" ++ nonNullCondition ++ ") OR " ++ nullCheck ++ ")", acc5.2)
            else .ok (nullCheck, acc5.2)
          else if nonNullCondition = "" then .ok ("FALSE", acc5.2)
          else .ok (nonNullCondition, acc5.2)
      | _ => .ok ("FALSE", ps)
    else if op = "$nin" then
      match operand with
      | .arr [] => .ok ("TRUE", ps)
      | .arr elems =>
        let hasNull := elems.contains JVal.jnull
        let nonNull := elems.filter (fun v => v ≠ JVal.jnull)
        if nonNull.isEmpty then
          .ok ((if hasNull then
            "(" ++ jsonPath ++ " IS NOT NULL AND " ++ jsonPath ++ " != 'null'::jsonb)"
            else "TRUE"), ps)
        else
          let (conditions, ps') := ninConds accessPath jsonPath (groupByType nonNull) ps
          let joined := joinSep " AND " conditions
          let nonNullCondition := if conditions.length > 1 then "(" ++ joined ++ ")" else joined
          if hasNull then
            .ok ("(" ++ nonNullCondition ++ " AND (" ++ jsonPath ++ " IS NOT NULL AND " ++
              jsonPath ++ " != 'null'::jsonb))", ps')
          else .ok (nonNullCondition, ps')
      | _ => .ok ("TRUE", ps)
    else if op = "$exists" then
      .ok ((if jsTruthy operand then jsonPath ++ " IS NOT NULL" else jsonPath ++ " IS NULL"), ps)
    else if op = "$regex" then
      let flags0 : JVal :=
        match regexOptions with
        | some v => if jsTruthy v then v else .str ""
        | none => .str ""
      let pf : JVal × JVal :=
        match operand with
        | .arr [.str p, .str f] => (.str p, .str f)
        | .str s =>
          if regexSlashGuard s then
            match regexParse s with
            | some (p, f) => (.str p, .str f)
            | none => (.str s, flags0)
          else (.str s, flags0)
        | v => (v, flags0)
      match pf.2 with
      | .str fs =>
        .ok (accessPath ++ " " ++ (if containsCh fs 'i' then "~*" else "~") ++ " " ++
          sqlValue pf.1, ps)
      | _ => .error .typeError
    else if op = "$mod" then
      match operand with
      | .arr [.num a, .num b] =>
        .ok ("(" ++ accessPath ++ ")::numeric % " ++ sqlValue (.num a) ++ " = " ++
          sqlValue (.num b), ps)
      | _ => .ok ("FALSE", ps)
    else if op = "$size" then
      match operand with
      | .num q =>
        if q.den = 1 && 0 ≤ q.num then
          .ok ("(jsonb_typeof(" ++ jsonPath ++ ") = 'array' AND jsonb_array_length(" ++
            jsonPath ++ ") = " ++ jsNumToString q ++ ")", ps)
        else .ok ("FALSE", ps)
      | _ => .ok ("FALSE", ps)
    else if op = "$all" then
      match operand with
      | .arr [] => .ok ("TRUE", ps)
      | .arr xs => .ok (jsonPath ++ " @> " ++ sqlValue (.arr xs) ++ "::jsonb", ps)
      | _ => .ok ("FALSE", ps)
    else if op = "$elemMatch" then
      match operand with
      | .obj _ | .arr _ => do
        let ents : List (String × JVal) :=
          match operand with
          | .obj fs => fs
          | .arr xs => idxPairs xs
          | _ => []
        let keys := ents.map Prod.fst
        if keys.all startsDollar && !(keys.any isLogicalOp) then do
          let (conds, ps') ←
            match ents with
            | [] => pure ("", ps)
            | (k0, v0) :: _ =>
              handleComparisonOperator fuel k0 v0 "elem_val.value" "null" none ps
          if conds = "" || conds = "TRUE" then
            return ("(" ++ jsonPath ++ " IS NOT NULL AND jsonb_typeof(" ++ jsonPath ++
              ") = 'array' AND jsonb_array_length(" ++ jsonPath ++ ") > 0)", ps')
          else
            return ("EXISTS (SELECT 1 FROM jsonb_array_elements_text(" ++ jsonPath ++
              ") as elem_val WHERE " ++ conds ++ ")", ps')
        else do
          let (conds, ps') ← processQueryObject fuel ents "elem" "" ps
          if conds = "" || conds = "TRUE" then
            return ("(" ++ jsonPath ++ " IS NOT NULL AND jsonb_typeof(" ++ jsonPath ++
              ") = 'array' AND jsonb_array_length(" ++ jsonPath ++ ") > 0)", ps')
          else
            return ("EXISTS (SELECT 1 FROM jsonb_array_elements(" ++ jsonPath ++
              ") as elem WHERE " ++ conds ++ ")", ps')
      | _ => .ok ("FALSE", ps)
    else if op = "$type" then
      match operand with
      | .str s =>
        if typeMapOk s then
          .ok ("jsonb_typeof(" ++ jsonPath ++ ") = " ++ sqlValue (.str s), ps)
        else .ok ("FALSE", ps)
      | _ => .ok ("FALSE", ps)
    else if op = "$search" then .ok ("", ps)
    else .ok ("", ps)

/-- mirrors `#handleLogicalOperator`. -/
def handleLogicalOperator (fuel : Nat) (op : String) (operands : JVal)
    (jsonField parentPath : String) (ps : List JVal) :
    Except CErr (String × List JVal) :=
  match fuel with
  | 0 => .error .outOfFuel
  | fuel + 1 =>
    if op = "$and" || op = "$or" then
      match operands with
      | .arr [] => .ok ((if op = "$and" then "TRUE" else "FALSE"), ps)
      | .arr xs => do
        let (children, ps') ← hlSubDocs fuel xs jsonField parentPath ps
        let clauses := children.filter (fun c => c ≠ "" && c ≠ "TRUE")
        match clauses with
        | [] => return ((if op = "$and" then "TRUE" else "FALSE"), ps')
        | [c] => return (c, ps')
        | _ =>
          return ("(" ++ joinSep (if op = "$and" then " AND " else " OR ") clauses ++ ")", ps')
      | _ => .ok ((if op = "$and" then "TRUE" else "FALSE"), ps)
    else if op = "$not" then
      match operands with
      | .obj fs =>
        let keys := fs.map Prod.fst
        if !keys.isEmpty && keys.all startsDollar && !(isLogicalOp (keys.headD "")) then do
          let (inner, ps') ← processFieldOperators fuel fs "dummy_access" "dummy_json" ps
          notWrapR inner ps'
        else do
          let (inner, ps') ← processQueryObject fuel fs jsonField parentPath ps
          notWrapR inner ps'
      | _ => .ok ("FALSE", ps)
    else if op = "$nor" then
      match operands with
      | .arr [] => .ok ("TRUE", ps)
      | .arr xs => do
        let (children, ps') ← hlSubDocs fuel xs jsonField parentPath ps
        let clauses := children.filter (fun c => c ≠ "" && c ≠ "TRUE")
        match clauses with
        | [] => return ("FALSE", ps')
        | [c] => return ("NOT (" ++ c ++ ")", ps')
        | _ => return ("NOT ((" ++ joinSep " OR " clauses ++ "))", ps')
      | _ => .ok ("TRUE", ps)
    else .ok ("", ps)

/-- mirrors the `operands.map(subQuery => this.#processQueryObject(...))`
of `$and`/`$or`/`$nor`: every child is compiled in order (appending its
parameters) before any filtering happens. -/
def hlSubDocs (fuel : Nat) (xs : List JVal) (jsonField parentPath : String)
    (ps : List JVal) : Except CErr (List String × List JVal) :=
  match fuel, xs with
  | _, [] => .ok ([], ps)
  | 0, _ :: _ => .error .outOfFuel
  | fuel + 1, x :: rest => do
    let ents ← entriesOfE x
    let (c, ps1) ← processQueryObject fuel ents jsonField parentPath ps
    let (cs, ps') ← hlSubDocs fuel rest jsonField parentPath ps1
    return (c :: cs, ps')

/-- mirrors `#handleNotOperator` (field-scope `$not`). -/
def handleNotOperator (fuel : Nat) (operand : JVal) (accessPath jsonPath : String)
    (ps : List JVal) : Except CErr (String × List JVal) :=
  match fuel with
  | 0 => .error .outOfFuel
  | fuel + 1 =>
    match operand with
    | .obj fs => do
      let (inner, ps') ← processFieldOperators fuel fs accessPath jsonPath ps
      notWrapR inner ps'
    | _ => .ok ("FALSE", ps)

end

/-! ## One-step unfolding equations for the recursive core

The defining equations restated as theorems (each is `rfl`); they are
used to unfold the mutually recursive functions one fuel step at a
time in the proofs below. -/

theorem pqo_succ (fuel : Nat) (entries : List (String × JVal)) (jf pp : String)
    (ps : List JVal) :
    processQueryObject (fuel + 1) entries jf pp ps = (do
      match ← pqoEntries fuel entries jf pp ps with
      | PqRes.shortFalse ps' => return ("FALSE", ps')
      | PqRes.collected clauses itr ps' =>
        if clauses.contains "FALSE" then return ("FALSE", ps')
        else
          let valid := clauses.filter (fun c => c ≠ "" && c ≠ "TRUE")
          if valid.isEmpty then return ((if itr then "TRUE" else ""), ps')
          else return (joinSep " AND " valid, ps')) := rfl

theorem pqoE_nil (fuel : Nat) (jf pp : String) (ps : List JVal) :
    pqoEntries fuel [] jf pp ps = .ok (.collected [] false ps) := by
  cases fuel <;> rfl

theorem pqoE_cons (fuel : Nat) (key : String) (value : JVal)
    (rest : List (String × JVal)) (jf pp : String) (ps : List JVal) :
    pqoEntries (fuel + 1) ((key, value) :: rest) jf pp ps =
    (if key = "$where" then .error .whereUnsupported
    else if key = "$text" then do
      match ← pqoEntries fuel rest jf pp ps with
      | PqRes.shortFalse ps' => return .shortFalse ps'
      | PqRes.collected cl _ ps' => return .collected cl true ps'
    else if isLogicalOp key then do
      let ctx := if pp ≠ "" then pp else jf
      let (lc, ps1) ← handleLogicalOperator fuel key value ctx pp ps
      if lc = "TRUE" then
        match ← pqoEntries fuel rest jf pp ps1 with
        | PqRes.shortFalse ps' => return .shortFalse ps'
        | PqRes.collected cl _ ps' => return .collected cl true ps'
      else if lc = "FALSE" then return (.shortFalse ps1)
      else if lc = "" then pqoEntries fuel rest jf pp ps1
      else
        match ← pqoEntries fuel rest jf pp ps1 with
        | PqRes.shortFalse ps' => return .shortFalse ps'
        | PqRes.collected cl it ps' => return .collected (lc :: cl) it ps'
    else if !(startsDollar key) then
      let (ap, jp) :=
        if containsCh key '.' then dottedPaths key jf pp
        else plainPaths key jf pp
      let opObj : Option (List (String × JVal)) :=
        match value with
        | .obj fs => if fs.any (fun kv => startsDollar kv.1) then some fs else none
        | _ => none
      match opObj with
      | some fs => do
        let (fc, ps1) ← processFieldOperators fuel fs ap jp ps
        let crt := fc = "TRUE"
        let wrapped :=
          if ((fs.map Prod.fst).filter (fun k => k ≠ "$options")).length > 1
          then "(" ++ fc ++ ")" else fc
        match ← pqoEntries fuel rest jf pp ps1 with
        | PqRes.shortFalse ps' => return .shortFalse ps'
        | PqRes.collected cl it ps' =>
          if fc ≠ "" && fc ≠ "TRUE" then return .collected (wrapped :: cl) (it || crt) ps'
          else return .collected cl (it || crt) ps'
      | none => do
        let (fc, ps1) := createEqualityCondition ap jp value ps
        match ← pqoEntries fuel rest jf pp ps1 with
        | PqRes.shortFalse ps' => return .shortFalse ps'
        | PqRes.collected cl it ps' =>
          if fc ≠ "" && fc ≠ "TRUE" then return .collected (fc :: cl) it ps'
          else return .collected cl it ps'
    else pqoEntries fuel rest jf pp ps) := rfl

theorem pfo_succ (fuel : Nat) (ops : List (String × JVal)) (ap jp : String)
    (ps : List JVal) :
    processFieldOperators (fuel + 1) ops ap jp ps = (do
      let (fieldClauses, opTrue, ps') ←
        pfoOps fuel ops ap jp (ops.lookup "$options") ps
      if opTrue && fieldClauses.isEmpty then return ("TRUE", ps')
      else return (joinSep " AND " fieldClauses, ps')) := rfl

theorem pfoOps_nil (fuel : Nat) (ap jp : String) (ro : Option JVal) (ps : List JVal) :
    pfoOps fuel [] ap jp ro ps = .ok ([], false, ps) := by
  cases fuel <;> rfl

theorem pfoOps_cons (fuel : Nat) (op : String) (operand : JVal)
    (rest : List (String × JVal)) (ap jp : String) (ro : Option JVal) (ps : List JVal) :
    pfoOps (fuel + 1) ((op, operand) :: rest) ap jp ro ps =
    (if op = "$not" then do
      let (nc, ps1) ← handleNotOperator fuel operand ap jp ps
      let (cs, t, ps') ← pfoOps fuel rest ap jp ro ps1
      if nc ≠ "" then return (nc :: cs, t, ps') else return (cs, t, ps')
    else do
      let (c, ps1) ← handleComparisonOperator fuel op operand ap jp ro ps
      let (cs, t, ps') ← pfoOps fuel rest ap jp ro ps1
      if c = "TRUE" then return (cs, true, ps')
      else if c ≠ "" then return (c :: cs, t, ps')
      else return (cs, t, ps')) := rfl

theorem hn_succ (fuel : Nat) (operand : JVal) (ap jp : String) (ps : List JVal) :
    handleNotOperator (fuel + 1) operand ap jp ps =
    (match operand with
    | .obj fs => do
      let (inner, ps') ← processFieldOperators fuel fs ap jp ps
      notWrapR inner ps'
    | _ => .ok ("FALSE", ps)) := rfl

theorem hlSubDocs_nil (fuel : Nat) (jf pp : String) (ps : List JVal) :
    hlSubDocs fuel [] jf pp ps = .ok ([], ps) := by
  cases fuel <;> rfl

theorem hlSubDocs_cons (fuel : Nat) (x : JVal) (rest : List JVal) (jf pp : String)
    (ps : List JVal) :
    hlSubDocs (fuel + 1) (x :: rest) jf pp ps = (do
      let ents ← entriesOfE x
      let (c, ps1) ← processQueryObject fuel ents jf pp ps
      let (cs, ps') ← hlSubDocs fuel rest jf pp ps1
      return (c :: cs, ps')) := rfl

theorem hl_succ (fuel : Nat) (op : String) (operands : JVal) (jf pp : String)
    (ps : List JVal) :
    handleLogicalOperator (fuel + 1) op operands jf pp ps =
    (if op = "$and" || op = "$or" then
      match operands with
      | .arr [] => .ok ((if op = "$and" then "TRUE" else "FALSE"), ps)
      | .arr xs => do
        let (children, ps') ← hlSubDocs fuel xs jf pp ps
        let clauses := children.filter (fun c => c ≠ "" && c ≠ "TRUE")
        match clauses with
        | [] => return ((if op = "$and" then "TRUE" else "FALSE"), ps')
        | [c] => return (c, ps')
        | _ =>
          return ("(" ++ joinSep (if op = "$and" then " AND " else " OR ") clauses ++ ")", ps')
      | _ => .ok ((if op = "$and" then "TRUE" else "FALSE"), ps)
    else if op = "$not" then
      match operands with
      | .obj fs =>
        let keys := fs.map Prod.fst
        if !keys.isEmpty && keys.all startsDollar && !(isLogicalOp (keys.headD "")) then do
          let (inner, ps') ← processFieldOperators fuel fs "dummy_access" "dummy_json" ps
          notWrapR inner ps'
        else do
          let (inner, ps') ← processQueryObject fuel fs jf pp ps
          notWrapR inner ps'
      | _ => .ok ("FALSE", ps)
    else if op = "$nor" then
      match operands with
      | .arr [] => .ok ("TRUE", ps)
      | .arr xs => do
        let (children, ps') ← hlSubDocs fuel xs jf pp ps
        let clauses := children.filter (fun c => c ≠ "" && c ≠ "TRUE")
        match clauses with
        | [] => return ("FALSE", ps')
        | [c] => return ("NOT (" ++ c ++ ")", ps')
        | _ => return ("NOT ((" ++ joinSep " OR " clauses ++ "))", ps')
      | _ => .ok ("TRUE", ps)
    else .ok ("", ps)) := rfl

theorem hc_succ (fuel : Nat) (op : String) (operand : JVal)
    (accessPath jsonPath : String) (regexOptions : Option JVal) (ps : List JVal) :
    handleComparisonOperator (fuel + 1) op operand accessPath jsonPath regexOptions ps =
    (
    if op = "$eq" then
      match operand with
      | .undef => .ok (jsonPath ++ " IS NULL", ps)
      | v => .ok (createEqualityCondition accessPath jsonPath v ps)
    else if op = "$ne" then
      match operand with
      | .undef => .ok (jsonPath ++ " IS NOT NULL", ps)
      | .jnull =>
        .ok ("(" ++ jsonPath ++ " IS NOT NULL AND " ++ jsonPath ++ " != 'null'::jsonb)", ps)
      | .obj [] => .ok (jsonPath ++ "::jsonb != '{}'::jsonb", ps)
      | v =>
        let (ph, ps') := addParam v ps
        match v with
        | .boolean _ => .ok ("(" ++ accessPath ++ ")::boolean IS DISTINCT FROM " ++ ph, ps')
        | .arr _ => .ok (jsonPath ++ "::jsonb != " ++ ph ++ "::jsonb", ps')
        | .num q =>
          .ok ("(" ++ accessPath ++ ")::" ++ (if q.den = 1 then "integer" else "numeric") ++
            " IS DISTINCT FROM " ++ ph, ps')
        | _ => .ok (accessPath ++ " IS DISTINCT FROM " ++ ph, ps')
    else if op = "$gt" then .ok (cmpClause accessPath ">" operand, ps)
    else if op = "$gte" then .ok (cmpClause accessPath ">=" operand, ps)
    else if op = "$lt" then .ok (cmpClause accessPath "<" operand, ps)
    else if op = "$lte" then .ok (cmpClause accessPath "<=" operand, ps)
    else if op = "$in" then
      match operand with
      | .arr [] => .ok ("FALSE", ps)
      | .arr elems =>
        let hasNull := elems.contains JVal.jnull
        let nonNull := elems.filter (fun v => v ≠ JVal.jnull)
        let nullCheck := "(" ++ jsonPath ++ " IS NULL OR " ++ jsonPath ++ " = 'null'::jsonb)"
        if nonNull.isEmpty then .ok ((if hasNull then nullCheck else "FALSE"), ps)
        else
          let g := inGroups nonNull
          let acc1 := condStep
            (fun ph => "(" ++ accessPath ++ ")::integer = ANY(" ++ ph ++ ")") g.ints ([], ps)
          let acc2 := condStep
            (fun ph => "(" ++ accessPath ++ ")::numeric = ANY(" ++ ph ++ ")") g.nums acc1
          let acc3 := condStep
            (fun ph => "(" ++ accessPath ++ ")::boolean = ANY(" ++ ph ++ ")") g.bools acc2
          let acc4 := condStep (fun ph => accessPath ++ " = ANY(" ++ ph ++ ")") g.strs acc3
          let acc5 := condStep
            (fun ph => jsonPath ++ "::jsonb = ANY(" ++ ph ++ "::jsonb[])") g.objs acc4
          let conditions := acc5.1
          let joined := joinSep " OR " conditions
          let nonNullCondition := if conditions.length > 1 then "(" ++ joined ++ ")" else joined
          if hasNull then
            if nonNullCondition ≠ "" then
              .ok ("((" ++ nonNullCondition ++ ") OR " ++ nullCheck ++ ")", acc5.2)
            else .ok (nullCheck, acc5.2)
          else if nonNullCondition = "" then .ok ("FALSE", acc5.2)
          else .ok (nonNullCondition, acc5.2)
      | _ => .ok ("FALSE", ps)
    else if op = "$nin" then
      match operand with
      | .arr [] => .ok ("TRUE", ps)
      | .arr elems =>
        let hasNull := elems.contains JVal.jnull
        let nonNull := elems.filter (fun v => v ≠ JVal.jnull)
        if nonNull.isEmpty then
          .ok ((if hasNull then
            "(" ++ jsonPath ++ " IS NOT NULL AND " ++ jsonPath ++ " != 'null'::jsonb)"
            else "TRUE"), ps)
        else
          let (conditions, ps') := ninConds accessPath jsonPath (groupByType nonNull) ps
          let joined := joinSep " AND " conditions
          let nonNullCondition := if conditions.length > 1 then "(" ++ joined ++ ")" else joined
          if hasNull then
            .ok ("(" ++ nonNullCondition ++ " AND (" ++ jsonPath ++ " IS NOT NULL AND " ++
              jsonPath ++ " != 'null'::jsonb))", ps')
          else .ok (nonNullCondition, ps')
      | _ => .ok ("TRUE", ps)
    else if op = "$exists" then
      .ok ((if jsTruthy operand then jsonPath ++ " IS NOT NULL" else jsonPath ++ " IS NULL"), ps)
    else if op = "$regex" then
      let flags0 : JVal :=
        match regexOptions with
        | some v => if jsTruthy v then v else .str ""
        | none => .str ""
      let pf : JVal × JVal :=
        match operand with
        | .arr [.str p, .str f] => (.str p, .str f)
        | .str s =>
          if regexSlashGuard s then
            match regexParse s with
            | some (p, f) => (.str p, .str f)
            | none => (.str s, flags0)
          else (.str s, flags0)
        | v => (v, flags0)
      match pf.2 with
      | .str fs =>
        .ok (accessPath ++ " " ++ (if containsCh fs 'i' then "~*" else "~") ++ " " ++
          sqlValue pf.1, ps)
      | _ => .error .typeError
    else if op = "$mod" then
      match operand with
      | .arr [.num a, .num b] =>
        .ok ("(" ++ accessPath ++ ")::numeric % " ++ sqlValue (.num a) ++ " = " ++
          sqlValue (.num b), ps)
      | _ => .ok ("FALSE", ps)
    else if op = "$size" then
      match operand with
      | .num q =>
        if q.den = 1 && 0 ≤ q.num then
          .ok ("(jsonb_typeof(" ++ jsonPath ++ ") = 'array' AND jsonb_array_length(" ++
            jsonPath ++ ") = " ++ jsNumToString q ++ ")", ps)
        else .ok ("FALSE", ps)
      | _ => .ok ("FALSE", ps)
    else if op = "$all" then
      match operand with
      | .arr [] => .ok ("TRUE", ps)
      | .arr xs => .ok (jsonPath ++ " @> " ++ sqlValue (.arr xs) ++ "::jsonb", ps)
      | _ => .ok ("FALSE", ps)
    else if op = "$elemMatch" then
      match operand with
      | .obj _ | .arr _ => do
        let ents : List (String × JVal) :=
          match operand with
          | .obj fs => fs
          | .arr xs => idxPairs xs
          | _ => []
        let keys := ents.map Prod.fst
        if keys.all startsDollar && !(keys.any isLogicalOp) then do
          let (conds, ps') ←
            match ents with
            | [] => pure ("", ps)
            | (k0, v0) :: _ =>
              handleComparisonOperator fuel k0 v0 "elem_val.value" "null" none ps
          if conds = "" || conds = "TRUE" then
            return ("(" ++ jsonPath ++ " IS NOT NULL AND jsonb_typeof(" ++ jsonPath ++
              ") = 'array' AND jsonb_array_length(" ++ jsonPath ++ ") > 0)", ps')
          else
            return ("EXISTS (SELECT 1 FROM jsonb_array_elements_text(" ++ jsonPath ++
              ") as elem_val WHERE " ++ conds ++ ")", ps')
        else do
          let (conds, ps') ← processQueryObject fuel ents "elem" "" ps
          if conds = "" || conds = "TRUE" then
            return ("(" ++ jsonPath ++ " IS NOT NULL AND jsonb_typeof(" ++ jsonPath ++
              ") = 'array' AND jsonb_array_length(" ++ jsonPath ++ ") > 0)", ps')
          else
            return ("EXISTS (SELECT 1 FROM jsonb_array_elements(" ++ jsonPath ++
              ") as elem WHERE " ++ conds ++ ")", ps')
      | _ => .ok ("FALSE", ps)
    else if op = "$type" then
      match operand with
      | .str s =>
        if typeMapOk s then
          .ok ("jsonb_typeof(" ++ jsonPath ++ ") = " ++ sqlValue (.str s), ps)
        else .ok ("FALSE", ps)
      | _ => .ok ("FALSE", ps)
    else if op = "$search" then .ok ("", ps)
    else .ok ("", ps)) := rfl

/-! ## Converter: public entry points -/

/-- fuel that provably suffices for a query of this size (`convOkFuel`). -/
def convFuel (entries : List (String × JVal)) : Nat := 4 * psize entries + 8

/-- mirrors `#buildWhereClause`: empty query compiles to the empty
string, otherwise to `#processQueryObject`. -/
def buildWhereClause (entries : List (String × JVal)) (jsonField : String) :
    Except CErr (String × List JVal) :=
  if entries.isEmpty then .ok ("", [])
  else processQueryObject (convFuel entries) entries jsonField "" []

/-- the `options` record of `buildSelectQueryAndParams`.  Sort
directions are JS numbers (`1` means `ASC`, anything else `DESC`). -/
structure SelectOptions where
  jsonField : String := "data"
  schemaQ : Option String := none
  limit : Option Int := none
  offset : Option Int := none
  sort : List (String × Int) := []

/-- mirrors the dotted-path access computation of `#buildSortClause`
(the same take-the-regex-base construction as in the WHERE builder). -/
def sortAccessPath (key jsonField : String) : String :=
  if containsCh key '.' then
    let p := (dottedGo jsonField jsonField "" (jsSplit key '.')).1
    if p = "" then jsonField ++ "->>'" ++ key ++ "'" else p
  else jsonField ++ "->>'" ++ key ++ "'"

/-- mirrors `#buildSortClause`. -/
def buildSortClause (sort : List (String × Int)) (jsonField : String) : String :=
  if sort.isEmpty then ""
  else
    " ORDER BY " ++ joinSep ", " (sort.map fun kv =>
      sortAccessPath kv.1 jsonField ++ " " ++ (if kv.2 = 1 then "ASC" else "DESC"))

/-- mirrors `buildSelectQueryAndParams`. -/
def buildSelectQueryAndParams (collection : String) (query : List (String × JVal))
    (opts : SelectOptions := {}) : Except CErr (String × List JVal) := do
  let tableRef :=
    match opts.schemaQ with
    | some sc => quoteIdent sc ++ "." ++ quoteIdent collection
    | none => quoteIdent collection
  let (whereClause, ps) ← buildWhereClause query opts.jsonField
  let sql0 := "SELECT " ++ quoteIdent opts.jsonField ++ " FROM " ++ tableRef
  let sql1 :=
    if whereClause = "TRUE" then sql0 ++ " WHERE TRUE"
    else if whereClause ≠ "" then sql0 ++ " WHERE " ++ whereClause
    else sql0
  let sql2 := if !opts.sort.isEmpty then sql1 ++ buildSortClause opts.sort opts.jsonField else sql1
  let sql3 :=
    match opts.limit with
    | some l => if 0 < l then sql2 ++ " LIMIT " ++ intStr l else sql2
    | none => sql2
  let sql4 :=
    match opts.offset with
    | some o => if 0 < o then sql3 ++ " OFFSET " ++ intStr o else sql3
    | none => sql3
  return (jsTrim sql4, ps)

/-- mirrors `buildWhereClauseAndParams`: the clause gains a `WHERE `
prefix when non-empty. -/
def buildWhereClauseAndParams (query : List (String × JVal)) (jsonField : String := "data") :
    Except CErr (String × List JVal) := do
  let (whereClause, ps) ← buildWhereClause query jsonField
  return ((if whereClause ≠ "" then "WHERE " ++ whereClause else ""), ps)

/-! ## Update expression builder (`buildUpdateSetExpressionAndParams`) -/

/-- the `$inc` read-back path: `jsonField` quoted, then `->` with a
quoted literal for every dot-segment (all arrows are `->`). -/
def incAccessPath (fieldPath jsonField : String) : String :=
  (jsSplit fieldPath '.').foldl (fun acc p => acc ++ "->" ++ quoteLiteral p) (quoteIdent jsonField)

/-- the `$set` / `$inc` folds of `buildUpdateSetExpressionAndParams`:
wraps the running expression once per entry, appending one parameter. -/
def updSetEntries (jsonField : String) :
    List (String × JVal) → String → Nat → List JVal → String × Nat × List JVal
  | [], cur, applied, ps => (cur, applied, ps)
  | (fieldPath, v) :: rest, cur, applied, ps =>
    let pathArray := buildJsonbPath fieldPath
    let stringified : JVal :=
      match jsonStringify v with
      | some s => .str s
      | none => .undef
    let (ph, ps') := addParam stringified ps
    let cur' := "jsonb_set_lax(" ++ cur ++ "::jsonb, " ++ pathArray ++ ", " ++ ph ++
      "::jsonb, true)"
    updSetEntries jsonField rest cur' (applied + 1) ps'

/-- the `$inc` entry fold. -/
def updIncEntries (jsonField : String) :
    List (String × JVal) → String → Nat → List JVal → String × Nat × List JVal
  | [], cur, applied, ps => (cur, applied, ps)
  | (fieldPath, v) :: rest, cur, applied, ps =>
    match v with
    | .num q =>
      let pathArray := buildJsonbPath fieldPath
      let (ph, ps') := addParam (.num q) ps
      let incExpr := "to_jsonb(COALESCE((" ++ incAccessPath fieldPath jsonField ++
        ")::numeric, 0) + " ++ ph ++ "::numeric)"
      let cur' := "jsonb_set_lax(" ++ cur ++ "::jsonb, " ++ pathArray ++ ", " ++ incExpr ++
        ", true)"
      updIncEntries jsonField rest cur' (applied + 1) ps'
    | _ => updIncEntries jsonField rest cur applied ps

/-- the outer operator fold of `buildUpdateSetExpressionAndParams`. -/
def updOps (jsonField : String) :
    List (String × JVal) → String → Nat → List JVal → String × Nat × List JVal
  | [], cur, applied, ps => (cur, applied, ps)
  | (operator, ops) :: rest, cur, applied, ps =>
    let step : String × Nat × List JVal :=
      if operator = "$set" then
        match ops with
        | .obj fs => updSetEntries jsonField fs cur applied ps
        | .arr xs => updSetEntries jsonField (idxPairs xs) cur applied ps
        | _ => (cur, applied, ps)
      else if operator = "$inc" then
        match ops with
        | .obj fs => updIncEntries jsonField fs cur applied ps
        | .arr xs => updIncEntries jsonField (idxPairs xs) cur applied ps
        | _ => (cur, applied, ps)
      else (cur, applied, ps)
    updOps jsonField rest step.1 step.2.1 step.2.2

/-- mirrors `buildUpdateSetExpressionAndParams`: `none` when no
supported operator entry was applied. -/
def buildUpdateSetExpressionAndParams (updateOps : List (String × JVal))
    (jsonField : String := "data") : Option (String × List JVal) :=
  let (expr, applied, ps) := updOps jsonField updateOps (quoteIdent jsonField) 0 []
  if 0 < applied then some (expr, ps) else none

/-! ## Placeholder renumbering (`renumberPlaceholders` in the utils module) -/

/-- flush a pending `$…digits` token, shifting a completed token by `k`
(an unmatched bare `$` is reproduced verbatim, as the regex
`/\$(\d+)/g` leaves it alone). -/
def renumFlush (k : Nat) : Option (List Char) → List Char
  | none => []
  | some [] => ['$']
  | some ds => '$' :: natDigsF (natOfDigits ds + k + 1) (natOfDigits ds + k)

/-- the character scan behind `sql.replace(/\$(\d+)/g, m => m + k)`. -/
def renumAux (k : Nat) : List Char → Option (List Char) → List Char
  | [], st => renumFlush k st
  | c :: rest, none =>
    if c = '$' then renumAux k rest (some [])
    else c :: renumAux k rest none
  | c :: rest, some ds =>
    if c.isDigit then renumAux k rest (some (ds ++ [c]))
    else renumFlush k (some ds) ++
      (if c = '$' then renumAux k rest (some []) else c :: renumAux k rest none)

/-- mirrors `renumberPlaceholders(sql, startingIndex)`: every `$N`
token has `startingIndex` added to `N`. -/
def renumberPlaceholders (sql : String) (startingIndex : Nat) : String :=
  ⟨renumAux startingIndex sql.data none⟩

/-! ## Model layer statement plans (`schema.ts`)

The purely computational part of `remove` / `updateOne` / `updateMany`:
which SQL text and parameter vector would be handed to `db.query`, or
that no statement is issued at all. -/

/-- what a model-layer operation does after compiling its inputs. -/
inductive UpdatePlan where
  | noop
  | countOnly (sql : String) (ps : List JVal)
  | runUpdate (sql : String) (ps : List JVal)
deriving DecidableEq

/-- mirrors `updateOne` up to the `db.query` call: empty filter short
circuits to `{matchedCount: 0, modifiedCount: 0}` issuing nothing; no
applied update operator issues only a COUNT; otherwise the renumbered
SET expression is spliced after the WHERE clause. -/
def updateOnePlan (name jsonField : String) (filter updateOps : List (String × JVal)) :
    Except CErr UpdatePlan := do
  if filter.isEmpty then return .noop
  let (whereClause, filterParams) ← buildWhereClauseAndParams filter jsonField
  match buildUpdateSetExpressionAndParams updateOps jsonField with
  | none =>
    return .countOnly (jsTrim ("SELECT COUNT(*) as count FROM \"" ++ name ++ "\" " ++
      whereClause)) filterParams
  | some (setExpression, updateParams) =>
    let setClause := "SET " ++ jsonField ++ " = " ++
      renumberPlaceholders setExpression filterParams.length
    return .runUpdate (jsTrim ("UPDATE \"" ++ name ++ "\" " ++ setClause ++ " " ++ whereClause))
      (filterParams ++ updateParams)

/-- mirrors `updateMany` up to the `db.query` call — note the SET
target is the literal column name `data`, not the configured json
field. -/
def updateManyPlan (name jsonField : String) (filter updateOps : List (String × JVal)) :
    Except CErr UpdatePlan := do
  if filter.isEmpty then return .noop
  let (whereClause, filterParams) ← buildWhereClauseAndParams filter jsonField
  match buildUpdateSetExpressionAndParams updateOps jsonField with
  | none =>
    return .countOnly (jsTrim ("SELECT COUNT(*) as count FROM \"" ++ name ++ "\" " ++
      whereClause)) filterParams
  | some (setExpression, updateParams) =>
    return .runUpdate (jsTrim ("UPDATE \"" ++ name ++ "\" SET data = " ++
      renumberPlaceholders setExpression filterParams.length ++ " " ++ whereClause))
      (filterParams ++ updateParams)

/-- mirrors `remove` up to the `db.query` call: an empty query is a
hard error before anything is compiled; an empty WHERE clause is a hard
error before anything is issued; soft-delete mode rewrites to an UPDATE
with one extra timestamp parameter, hard mode issues a DELETE. -/
def removePlan (name jsonField : String) (softDelete : Bool) (now : Rat)
    (query : List (String × JVal)) : Except CErr (String × List JVal) := do
  if query.isEmpty then throw .emptyDestructive
  let effectiveQuery :=
    if softDelete && (query.lookup "_deletedAt").isNone then query ++ [("_deletedAt", JVal.jnull)]
    else query
  let (whereClause, ps) ← buildWhereClauseAndParams effectiveQuery jsonField
  if whereClause = "" then throw .noWhereClause
  if softDelete then
    return ("UPDATE \"" ++ name ++ "\" SET data = jsonb_set(data, '{_deletedAt}', to_jsonb($" ++
      natStr (ps.length + 1) ++ "::numeric)) " ++ whereClause, ps ++ [JVal.num now])
  else
    return (jsTrim ("DELETE FROM \"" ++ name ++ "\" " ++ whereClause), ps)

/-! ## Placeholder token scanner (`/\$(\d+)/g`) -/

/-- ASCII digit test: the `\d` of the `/\$(\d+)/g` placeholder regex. -/
def isDig (c : Char) : Bool := 48 ≤ c.toNat && c.toNat ≤ 57

/-- the `/\$(\d+)/g` scanner as a state machine over the characters:
the state is the pending digit run after a `$` (`none` when outside a
candidate token); returns the tokens emitted and the final state. -/
def runP : List Char → Option (List Char) → List Nat × Option (List Char)
  | [], st => ([], st)
  | c :: cs, st =>
    match st with
    | none => if c = '$' then runP cs (some []) else runP cs none
    | some ds =>
      if isDig c then runP cs (some (ds ++ [c]))
      else
        let emitted := if ds.isEmpty then ([] : List Nat) else [natOfDigits ds]
        let st' : Option (List Char) := if c = '$' then some [] else none
        let (ts, fin) := runP cs st'
        (emitted ++ ts, fin)

/-- tokens emitted when the scan ends: a non-empty pending digit run is
one final token. -/
def phClose : Option (List Char) → List Nat
  | none => []
  | some ds => if ds.isEmpty then [] else [natOfDigits ds]

/-- tokens of the suffix `l` scanned from state `st`, end included. -/
def phSuffix (l : List Char) (st : Option (List Char)) : List Nat :=
  (runP l st).1 ++ phClose (runP l st).2

/-- every `$N` placeholder token of a SQL text, left to right (the
matches of JS `/\$(\d+)/g`, each taken by its numeric value). -/
def phList (s : String) : List Nat := phSuffix s.data none

/-- a well-formed placeholder clause: scanning it from the outside
state emits nothing and ends pending exactly on the digits of `$k`,
and its last character is a digit. -/
def ClauseOK (c : String) (k : Nat) : Prop :=
  runP c.data none = ([], some ((natStr k).data)) ∧
  ∃ d, c.data.getLast? = some d ∧ isDig d = true

/-- is the value a primitive (string, number or boolean)? -/
def isPrimVal : JVal → Bool
  | .str _ | .num _ | .boolean _ => true
  | _ => false

/-! ## General string lemmas -/

theorem flat_one (c : Char) (rep : List Char) (l : List Char) (h : ∀ d ∈ l, d ≠ c) :
    ((l.map fun d => if d = c then rep else [d]).flatten) = l := by
  induction l with
  | nil => simp
  | cons d t ih =>
    simp only [List.map_cons, List.flatten_cons, if_neg (h d (by simp))]
    simp only [List.cons_append, List.nil_append]
    rw [ih (fun x hx => h x (by simp [hx]))]

theorem replCh_eq_self (c : Char) (rep : List Char) (s : String) (h : c ∉ s.data) :
    replCh c rep s = s := by
  cases s with
  | mk l =>
    show (⟨_⟩ : String) = _
    congr 1
    exact flat_one c rep l (fun d hd he => h (he ▸ hd))

theorem quoteIdent_no_quote (t : String) (h : '"' ∉ t.data) :
    quoteIdent t = "\"" ++ t ++ "\"" := by
  unfold quoteIdent
  rw [replCh_eq_self _ _ _ h]

theorem dropWhile_eq_self_of_head (p : Char → Bool) (l : List Char)
    (h : ∀ c ∈ l.head?, p c = false) : l.dropWhile p = l := by
  cases l with
  | nil => rfl
  | cons a t => simp [List.dropWhile_cons, h a (by simp)]

theorem jsTrim_eq_self (s : String) (h1 : ∀ c ∈ s.data.head?, c.isWhitespace = false)
    (h2 : ∀ c ∈ s.data.getLast?, c.isWhitespace = false) : jsTrim s = s := by
  cases s with
  | mk l =>
    show (⟨_⟩ : String) = _
    congr 1
    rw [dropWhile_eq_self_of_head _ _ h1]
    rw [dropWhile_eq_self_of_head _ _ (by simpa [List.head?_reverse] using h2)]
    exact l.reverse_reverse

theorem head?_append_left {α} (l₁ l₂ : List α) (c : α) (h : l₁.head? = some c) :
    (l₁ ++ l₂).head? = some c := by
  cases l₁ <;> simp_all

/-! ## Claims -/

/-- a key that does not start with `$` differs from any operator name. -/
theorem notDollarKey (f g : String) (hf : startsDollar f = false)
    (hg : startsDollar g = true) : f ≠ g :=
  fun he => by subst he; rw [hf] at hg; exact absurd hg (by decide)

/-- a key that does not start with `$` is not a logical operator. -/
theorem isLogicalOp_eq_false (f : String) (hf : startsDollar f = false) :
    isLogicalOp f = false := by
  unfold isLogicalOp
  rw [decide_eq_false (notDollarKey f "$and" hf (by decide)),
      decide_eq_false (notDollarKey f "$or" hf (by decide)),
      decide_eq_false (notDollarKey f "$nor" hf (by decide)),
      decide_eq_false (notDollarKey f "$not" hf (by decide))]
  rfl

theorem pqoE_ninEmpty (fuel : Nat) (f jf pp : String) (ps : List JVal)
    (hf : startsDollar f = false) :
    pqoEntries (fuel + 4) [(f, obj [("$nin", arr [])])] jf pp ps =
      .ok (.collected [] true ps) := by
  rw [pqoE_cons]
  rw [if_neg (notDollarKey f "$where" hf (by decide)),
      if_neg (notDollarKey f "$text" hf (by decide)),
      isLogicalOp_eq_false f hf]
  rw [if_neg (by decide : ¬(false = true)), hf]
  rw [if_pos (by decide : (!false) = true)]
  cases containsCh f '.' <;> rfl

theorem pqo_ninEmpty (fuel : Nat) (f jf pp : String) (ps : List JVal)
    (hf : startsDollar f = false) :
    processQueryObject (fuel + 5) [(f, obj [("$nin", arr [])])] jf pp ps =
      .ok ("TRUE", ps) := by
  rw [pqo_succ, pqoE_ninEmpty fuel f jf pp ps hf]
  rfl

theorem pqoE_inEmpty (fuel : Nat) (f jf pp : String) (ps : List JVal)
    (hf : startsDollar f = false) :
    pqoEntries (fuel + 4) [(f, obj [("$in", arr [])])] jf pp ps =
      .ok (.collected ["FALSE"] false ps) := by
  rw [pqoE_cons]
  rw [if_neg (notDollarKey f "$where" hf (by decide)),
      if_neg (notDollarKey f "$text" hf (by decide)),
      isLogicalOp_eq_false f hf]
  rw [if_neg (by decide : ¬(false = true)), hf]
  rw [if_pos (by decide : (!false) = true)]
  cases containsCh f '.' <;> rfl

theorem pqo_inEmpty (fuel : Nat) (f jf pp : String) (ps : List JVal)
    (hf : startsDollar f = false) :
    processQueryObject (fuel + 5) [(f, obj [("$in", arr [])])] jf pp ps =
      .ok ("FALSE", ps) := by
  rw [pqo_succ, pqoE_inEmpty fuel f jf pp ps hf]
  rfl

theorem whereNinEmpty (f : String) (hf : startsDollar f = false) :
    buildWhereClause [(f, obj [("$nin", arr [])])] "data" = .ok ("TRUE", []) :=
  pqo_ninEmpty 19 f "data" "" [] hf

theorem whereInEmpty (f : String) (hf : startsDollar f = false) :
    buildWhereClause [(f, obj [("$in", arr [])])] "data" = .ok ("FALSE", []) :=
  pqo_inEmpty 19 f "data" "" [] hf

theorem selectAssembleEmpty (t : String) (q : List (String × JVal)) (ps : List JVal)
    (h : '"' ∉ t.data) (hw : buildWhereClause q "data" = .ok ("", ps)) :
    buildSelectQueryAndParams t q {} = .ok ("SELECT \"data\" FROM \"" ++ t ++ "\"", ps) := by
  have k1 : ("SELECT " ++ quoteIdent "data" ++ " FROM ").data.head? = some 'S' := by decide
  have hne1 : ("\"" ++ t ++ "\"").data ≠ [] := by
    rw [String.data_append]; simp
  have hne2 : ("\"" : String).data ≠ [] := by decide
  unfold buildSelectQueryAndParams
  rw [hw]
  show Except.ok (jsTrim _, ps) = _
  dsimp only
  rw [quoteIdent_no_quote t h]
  rw [if_neg (by decide : ¬(("" : String) = "TRUE"))]
  rw [if_neg (by decide : ¬(("" : String) ≠ ""))]
  rw [if_neg (by decide : ¬((!List.isEmpty ([] : List (String × Int))) = true))]
  rw [jsTrim_eq_self]
  · rfl
  · intro c hc
    rw [String.data_append, head?_append_left _ _ _ k1] at hc
    simp at hc; subst hc; decide
  · intro c hc
    rw [String.data_append, List.getLast?_append_of_ne_nil _ hne1] at hc
    rw [String.data_append, List.getLast?_append_of_ne_nil _ hne2] at hc
    simp at hc; subst hc; decide

theorem selectAssembleConst (t : String) (q : List (String × JVal)) (ps : List JVal)
    (w : String) (h : '"' ∉ t.data) (hw : buildWhereClause q "data" = .ok (w, ps))
    (hT : w = "TRUE" ∨ w = "FALSE") :
    buildSelectQueryAndParams t q {} =
      .ok ("SELECT \"data\" FROM \"" ++ t ++ "\" WHERE " ++ w, ps) := by
  have k1 : ("SELECT " ++ quoteIdent "data" ++ " FROM ").data.head? = some 'S' := by decide
  have k2 : (("SELECT " ++ quoteIdent "data" ++ " FROM ") ++ ("\"" ++ t ++ "\"")).data.head? =
      some 'S' := by
    rw [String.data_append]; exact head?_append_left _ _ _ k1
  have k3 : ((("SELECT " ++ quoteIdent "data" ++ " FROM ") ++ ("\"" ++ t ++ "\"")) ++
      " WHERE ").data.head? = some 'S' := by
    rw [String.data_append]; exact head?_append_left _ _ _ k2
  unfold buildSelectQueryAndParams
  rw [hw]
  show Except.ok (jsTrim _, ps) = _
  dsimp only
  rw [quoteIdent_no_quote t h]
  rw [if_neg (by decide : ¬((!List.isEmpty ([] : List (String × Int))) = true))]
  have hstep : (if w = "TRUE" then
        "SELECT " ++ quoteIdent "data" ++ " FROM " ++ ("\"" ++ t ++ "\"") ++ " WHERE TRUE"
      else if w ≠ "" then
        "SELECT " ++ quoteIdent "data" ++ " FROM " ++ ("\"" ++ t ++ "\"") ++ " WHERE " ++ w
      else "SELECT " ++ quoteIdent "data" ++ " FROM " ++ ("\"" ++ t ++ "\"")) =
      "SELECT " ++ quoteIdent "data" ++ " FROM " ++ ("\"" ++ t ++ "\"") ++ " WHERE " ++ w := by
    rcases hT with h1 | h1 <;> subst h1
    · rw [if_pos rfl]
      simp only [String.append_assoc]
      rfl
    · rw [if_neg (by decide), if_pos (by decide)]
  rw [hstep]
  rw [jsTrim_eq_self]
  · simp only [String.append_assoc]
    rfl
  · intro c hc
    rw [String.data_append, head?_append_left _ _ _ k3] at hc
    simp at hc; subst hc; decide
  · intro c hc
    rcases hT with h1 | h1 <;> subst h1 <;>
      (rw [String.data_append, List.getLast?_append_of_ne_nil _ (by decide)] at hc;
       simp at hc; subst hc; decide)

/-- Claim C7.  Compiling the empty query against any table yields
`SELECT "data" FROM "T"` with no WHERE clause and no parameters, and
the degenerate operators compile to the symbolic booleans: `{$and: []}`
emits `WHERE TRUE`, `{$or: []}` emits `WHERE FALSE`, a field with
`{$nin: []}` emits `WHERE TRUE`, and a field with `{$in: []}` emits
`WHERE FALSE` — all with no parameters.  `t` is any table name without
a double quote (so that `"T"` is the quoted form), `f` any field key
not starting with `$`. -/
theorem C7_empty_and_degenerate (t f : String) (ht : '"' ∉ t.data)
    (hf : startsDollar f = false) :
    buildSelectQueryAndParams t [] {} = .ok ("SELECT \"data\" FROM \"" ++ t ++ "\"", []) ∧
    buildSelectQueryAndParams t [("$and", arr [])] {} =
      .ok ("SELECT \"data\" FROM \"" ++ t ++ "\" WHERE " ++ "TRUE", []) ∧
    buildSelectQueryAndParams t [("$or", arr [])] {} =
      .ok ("SELECT \"data\" FROM \"" ++ t ++ "\" WHERE " ++ "FALSE", []) ∧
    buildSelectQueryAndParams t [(f, obj [("$nin", arr [])])] {} =
      .ok ("SELECT \"data\" FROM \"" ++ t ++ "\" WHERE " ++ "TRUE", []) ∧
    buildSelectQueryAndParams t [(f, obj [("$in", arr [])])] {} =
      .ok ("SELECT \"data\" FROM \"" ++ t ++ "\" WHERE " ++ "FALSE", []) := by
  refine ⟨?_, ?_, ?_, ?_, ?_⟩
  · exact selectAssembleEmpty t [] [] ht rfl
  · exact selectAssembleConst t _ [] "TRUE" ht (by decide) (Or.inl rfl)
  · exact selectAssembleConst t _ [] "FALSE" ht (by decide) (Or.inr rfl)
  · exact selectAssembleConst t _ [] "TRUE" ht (whereNinEmpty f hf) (Or.inl rfl)
  · exact selectAssembleConst t _ [] "FALSE" ht (whereInEmpty f hf) (Or.inr rfl)

/-- witness for C7 at table `users` and field `tags`. -/
theorem C7_empty_and_degenerate_witness :
    buildSelectQueryAndParams "users" [] {} =
      .ok ("SELECT \"data\" FROM \"" ++ "users" ++ "\"", []) ∧
    buildSelectQueryAndParams "users" [("$and", arr [])] {} =
      .ok ("SELECT \"data\" FROM \"" ++ "users" ++ "\" WHERE " ++ "TRUE", []) ∧
    buildSelectQueryAndParams "users" [("$or", arr [])] {} =
      .ok ("SELECT \"data\" FROM \"" ++ "users" ++ "\" WHERE " ++ "FALSE", []) ∧
    buildSelectQueryAndParams "users" [("tags", obj [("$nin", arr [])])] {} =
      .ok ("SELECT \"data\" FROM \"" ++ "users" ++ "\" WHERE " ++ "TRUE", []) ∧
    buildSelectQueryAndParams "users" [("tags", obj [("$in", arr [])])] {} =
      .ok ("SELECT \"data\" FROM \"" ++ "users" ++ "\" WHERE " ++ "FALSE", []) :=
  C7_empty_and_degenerate "users" "tags" (by decide) (by decide)

theorem runP_append (a b : List Char) (st : Option (List Char)) :
    runP (a ++ b) st =
      ((runP a st).1 ++ (runP b (runP a st).2).1, (runP b (runP a st).2).2) := by
  induction a generalizing st with
  | nil => simp [runP]
  | cons c cs ih =>
    cases st with
    | none =>
      by_cases h : c = '$' <;> simp [runP, h, ih]
    | some ds =>
      by_cases h : isDig c
      · simp [runP, h, ih]
      · by_cases h2 : c = '$' <;>
          simp [runP, h, h2, ih, List.append_assoc,
            show isDig '$' = false from rfl]

theorem phSuffix_append (a b : List Char) (st : Option (List Char)) :
    phSuffix (a ++ b) st = (runP a st).1 ++ phSuffix b (runP a st).2 := by
  simp [phSuffix, runP_append, List.append_assoc]

theorem runP_noDollar (l : List Char) (h : '$' ∉ l) : runP l none = ([], none) := by
  induction l with
  | nil => rfl
  | cons c cs ih =>
    have hc : ¬(c = '$') := fun he => h (he ▸ List.mem_cons_self c cs)
    simp [runP, hc, ih (fun hm => h (List.mem_cons_of_mem c hm))]

theorem runP_digits (l : List Char) (h : ∀ c ∈ l, isDig c = true) :
    ∀ ds, runP l (some ds) = ([], some (ds ++ l)) := by
  induction l with
  | nil => intro ds; simp [runP]
  | cons c cs ih =>
    intro ds
    have hc : isDig c = true := h c (List.mem_cons_self c cs)
    rw [show runP (c :: cs) (some ds) = runP cs (some (ds ++ [c])) by simp [runP, hc]]
    rw [ih (fun x hx => h x (List.mem_cons_of_mem c hx))]
    simp




theorem isDig_digitChar (n : Nat) (h : n < 10) : isDig (digitChar n) = true := by
  interval_cases n <;> decide

theorem digVal_digitChar (n : Nat) (h : n < 10) : digVal (digitChar n) = n := by
  interval_cases n <;> decide

theorem natDigsF_digits (fuel : Nat) :
    ∀ n c, c ∈ natDigsF fuel n → isDig c = true := by
  induction fuel with
  | zero => intro n c hc; simp [natDigsF] at hc
  | succ f ih =>
    intro n c hc
    by_cases h : n < 10
    · simp only [natDigsF, if_pos h, List.mem_singleton] at hc
      exact hc ▸ isDig_digitChar n h
    · simp only [natDigsF, if_neg h, List.mem_append, List.mem_singleton] at hc
      rcases hc with hc | hc
      · exact ih _ c hc
      · exact hc ▸ isDig_digitChar _ (Nat.mod_lt _ (by decide))

theorem natDigsF_ne_nil (fuel n : Nat) (h : 0 < fuel) : natDigsF fuel n ≠ [] := by
  cases fuel with
  | zero => exact absurd h (by decide)
  | succ f =>
    by_cases hn : n < 10
    · simp [natDigsF, hn]
    · simp [natDigsF, hn]

theorem natStr_digits (n : Nat) : ∀ c ∈ (natStr n).data, isDig c = true :=
  fun c hc => natDigsF_digits (n + 1) n c hc

theorem natStr_ne_nil (n : Nat) : (natStr n).data ≠ [] :=
  natDigsF_ne_nil (n + 1) n (Nat.succ_pos n)

theorem natOfDigits_append_singleton (l : List Char) (c : Char) :
    natOfDigits (l ++ [c]) = 10 * natOfDigits l + digVal c := by
  simp [natOfDigits, List.foldl_append]

theorem natOfDigits_natDigsF :
    ∀ n fuel, n + 1 ≤ fuel → natOfDigits (natDigsF fuel n) = n := by
  intro n
  induction n using Nat.strong_induction_on with
  | _ n ih =>
    intro fuel hf
    cases fuel with
    | zero => exact absurd hf (by omega)
    | succ f =>
      by_cases h : n < 10
      · simp only [natDigsF, if_pos h]
        show natOfDigits [digitChar n] = n
        simp [natOfDigits, digVal_digitChar n h]
      · simp only [natDigsF, if_neg h]
        rw [natOfDigits_append_singleton]
        have hlt : n / 10 < n := Nat.div_lt_self (by omega) (by decide)
        rw [ih (n / 10) hlt f (by omega)]
        rw [digVal_digitChar _ (Nat.mod_lt _ (by decide))]
        omega

theorem natOfDigits_natStr (n : Nat) : natOfDigits (natStr n).data = n :=
  natOfDigits_natDigsF n (n + 1) (Nat.le_refl _)


theorem runP_dollar (l : List Char) : runP ('$' :: l) none = runP l (some []) := by
  simp [runP]

theorem containsCh_false_not_mem (s : String) (c : Char) (h : containsCh s c = false) :
    c ∉ s.data := by
  intro hm
  rw [show containsCh s c = s.data.contains c from rfl] at h
  rw [List.contains_eq_any_beq] at h
  have : s.data.any (fun x => c == x) = true :=
    List.any_eq_true.mpr ⟨c, hm, by simp⟩
  rw [this] at h
  exact absurd h (by decide)

theorem not_mem_append_str (a b : String) (c : Char) (ha : c ∉ a.data) (hb : c ∉ b.data) :
    c ∉ (a ++ b).data := by
  rw [String.data_append]
  intro hm
  rcases List.mem_append.mp hm with h | h
  · exact ha h
  · exact hb h

theorem clauseOK_of_shape (pre : String) (k : Nat) (hp : '$' ∉ pre.data) :
    ClauseOK (pre ++ ("$" ++ natStr k)) k := by
  have hdata : (pre ++ ("$" ++ natStr k)).data = pre.data ++ ('$' :: (natStr k).data) := by
    rw [String.data_append, String.data_append]
    rfl
  constructor
  · rw [hdata, runP_append, runP_noDollar pre.data hp]
    simp only
    rw [runP_dollar, runP_digits (natStr k).data (natStr_digits k) []]
    rfl
  · have hne : (natStr k).data ≠ [] := natStr_ne_nil k
    have hne2 : ('$' :: (natStr k).data) ≠ [] := by simp
    refine ⟨(natStr k).data.getLast hne, ?_, ?_⟩
    · rw [hdata, List.getLast?_append_of_ne_nil _ hne2]
      rw [show ('$' :: (natStr k).data) = ['$'] ++ (natStr k).data from rfl]
      rw [List.getLast?_append_of_ne_nil _ hne]
      exact (List.getLast?_eq_getLast _ hne).symm ▸ rfl
    · exact natStr_digits k _ (List.getLast_mem hne)

theorem clauseOK_ne (c : String) (k : Nat) (h : ClauseOK c k) :
    c ≠ "" ∧ c ≠ "TRUE" ∧ c ≠ "FALSE" := by
  obtain ⟨-, d, hd, hdig⟩ := h
  refine ⟨?_, ?_, ?_⟩ <;> intro he <;> subst he <;> simp at hd <;>
    (rw [← hd] at hdig; exact absurd hdig (by decide))

theorem sep_scan (d : Char) (t : List Char) :
    runP (" AND ").data (some (d :: t)) = ([natOfDigits (d :: t)], none) := rfl

theorem joinSep_cons_cons (sep c r : String) (t : List String) :
    joinSep sep (c :: r :: t) = c ++ sep ++ joinSep sep (r :: t) := rfl

theorem phList_clause (c : String) (k : Nat) (h : ClauseOK c k) : phList c = [k] := by
  obtain ⟨hrun, -⟩ := h
  show phSuffix c.data none = [k]
  rw [phSuffix, hrun]
  obtain ⟨d, t, hd⟩ : ∃ d t, (natStr k).data = d :: t := by
    cases hnd : (natStr k).data with
    | nil => exact absurd hnd (natStr_ne_nil k)
    | cons d t => exact ⟨d, t, rfl⟩
  show [] ++ phClose (some (natStr k).data) = [k]
  rw [hd]
  show [] ++ [natOfDigits (d :: t)] = [k]
  rw [← hd, natOfDigits_natStr]
  rfl

theorem joinSep_phList (l : List (String × Nat)) :
    l ≠ [] → (∀ p ∈ l, ClauseOK p.1 p.2) →
    phList (joinSep " AND " (l.map Prod.fst)) = l.map Prod.snd := by
  induction l with
  | nil => intro h _; exact absurd rfl h
  | cons hd tl ih =>
    intro _ h
    cases tl with
    | nil =>
      simp only [List.map_cons, List.map_nil]
      show phList (joinSep " AND " [hd.1]) = [hd.2]
      exact phList_clause hd.1 hd.2 (h hd (by simp))
    | cons p t =>
      obtain ⟨hrun, -⟩ := h hd (by simp)
      obtain ⟨d, dt, hdg⟩ : ∃ d dt, (natStr hd.2).data = d :: dt := by
        cases hnd : (natStr hd.2).data with
        | nil => exact absurd hnd (natStr_ne_nil hd.2)
        | cons d dt => exact ⟨d, dt, rfl⟩
      have e1 : runP (hd.1 ++ " AND ").data none = ([hd.2], none) := by
        rw [String.data_append, runP_append, hrun]
        dsimp only
        rw [hdg, sep_scan, ← hdg, natOfDigits_natStr]
        rfl
      simp only [List.map_cons]
      rw [joinSep_cons_cons]
      simp only [phList]
      rw [String.data_append, phSuffix_append, e1]
      dsimp only
      rw [show phSuffix (joinSep " AND " (p.1 :: List.map Prod.fst t)).data none =
            phList (joinSep " AND " (List.map Prod.fst (p :: t))) from rfl]
      rw [ih (by simp) (fun q hq => h q (List.mem_cons_of_mem hd hq))]
      simp

theorem mem_of_startsDollar (f : String) (h : startsDollar f = true) : '$' ∈ f.data := by
  unfold startsDollar at h
  split at h
  · next heq => rw [heq]; exact List.mem_cons_self _ _
  · exact absurd h (by decide)

theorem startsDollar_eq_false_of (f : String) (hf : containsCh f '$' = false) :
    startsDollar f = false := by
  cases hb : startsDollar f with
  | false => rfl
  | true => exact absurd (mem_of_startsDollar f hb) (containsCh_false_not_mem f '$' hf)

theorem no_dollar_ap (f : String) (hf : containsCh f '$' = false) :
    '$' ∉ ("data" ++ "->>'" ++ f ++ "'").data := by
  refine not_mem_append_str _ _ _ (not_mem_append_str _ _ _ (by decide)
    (containsCh_false_not_mem f '$' hf)) (by decide)

theorem eq_clause_prim (f : String) (v : JVal) (ps : List JVal)
    (hf : containsCh f '$' = false) (hv : isPrimVal v = true) :
    ∃ c, createEqualityCondition (plainPaths f "data" "").1 (plainPaths f "data" "").2 v ps =
        (c, ps ++ [v]) ∧ ClauseOK c (ps.length + 1) := by
  have hap : '$' ∉ (plainPaths f "data" "").1.data := no_dollar_ap f hf
  cases v with
  | str s =>
    refine ⟨((plainPaths f "data" "").1 ++ " = ") ++ ("$" ++ natStr (ps.length + 1)),
      rfl, clauseOK_of_shape _ _ ?_⟩
    exact not_mem_append_str _ _ _ hap (by decide)
  | boolean b =>
    refine ⟨(("(" ++ (plainPaths f "data" "").1) ++ ")::boolean = ") ++
      ("$" ++ natStr (ps.length + 1)), rfl, clauseOK_of_shape _ _ ?_⟩
    exact not_mem_append_str _ _ _
      (not_mem_append_str _ _ _ (by decide) hap) (by decide)
  | num q =>
    have hcast : '$' ∉ ((if q.den = 1 then "integer" else "numeric") : String).data := by
      by_cases h : q.den = 1 <;> simp [h]
    refine ⟨(((("(" ++ (plainPaths f "data" "").1) ++ ")::") ++
      (if q.den = 1 then "integer" else "numeric")) ++ " = ") ++
      ("$" ++ natStr (ps.length + 1)), rfl, clauseOK_of_shape _ _ ?_⟩
    refine not_mem_append_str _ _ _ (not_mem_append_str _ _ _
      (not_mem_append_str _ _ _ (not_mem_append_str _ _ _ (by decide) hap) (by decide))
      hcast) (by decide)
  | jnull => exact absurd hv (by simp [isPrimVal])
  | undef => exact absurd hv (by simp [isPrimVal])
  | arr xs => exact absurd hv (by simp [isPrimVal])
  | obj fs => exact absurd hv (by simp [isPrimVal])

theorem pqoE_prim_step (f : String) (v : JVal) (rest : List (String × JVal)) (fuel : Nat)
    (ps : List JVal) (hsd : startsDollar f = false) (hdot : containsCh f '.' = false)
    (hv : isPrimVal v = true) :
    pqoEntries (fuel + 1) ((f, v) :: rest) "data" "" ps =
      (do
        let (fc, ps1) := createEqualityCondition (plainPaths f "data" "").1
          (plainPaths f "data" "").2 v ps
        match ← pqoEntries fuel rest "data" "" ps1 with
        | PqRes.shortFalse ps' => pure (PqRes.shortFalse ps')
        | PqRes.collected cl it ps' =>
          if fc ≠ "" && fc ≠ "TRUE" then pure (PqRes.collected (fc :: cl) it ps')
          else pure (PqRes.collected cl it ps')) := by
  rw [pqoE_cons]
  rw [if_neg (notDollarKey f "$where" hsd (by decide)),
      if_neg (notDollarKey f "$text" hsd (by decide)),
      isLogicalOp_eq_false f hsd]
  rw [if_neg (by decide : ¬(false = true)), hsd]
  rw [if_pos (by decide : (!false) = true)]
  rw [hdot]
  cases v <;> first
    | rfl
    | exact absurd hv (by simp [isPrimVal])

theorem pqoE_prim (entries : List (String × JVal)) :
    ∀ (x : Nat) (ps : List JVal),
    (∀ e ∈ entries, containsCh e.1 '$' = false ∧ containsCh e.1 '.' = false) →
    (∀ e ∈ entries, isPrimVal e.2 = true) →
    ∃ cl : List (String × Nat),
      pqoEntries (entries.length + x) entries "data" "" ps =
        .ok (.collected (cl.map Prod.fst) false (ps ++ entries.map Prod.snd)) ∧
      cl.map Prod.snd = List.range' (ps.length + 1) entries.length ∧
      ∀ p ∈ cl, ClauseOK p.1 p.2 := by
  induction entries with
  | nil =>
    intro x ps _ _
    refine ⟨[], ?_, by simp, by simp⟩
    rw [pqoE_nil]
    simp
  | cons hd tl ih =>
    intro x ps hk hv
    obtain ⟨f, v⟩ := hd
    have hkf := hk (f, v) (by simp)
    have hfd : containsCh f '$' = false := hkf.1
    have hdot : containsCh f '.' = false := hkf.2
    have hsd : startsDollar f = false := startsDollar_eq_false_of f hfd
    have hvp : isPrimVal v = true := hv (f, v) (by simp)
    obtain ⟨c, hceq, hcok⟩ := eq_clause_prim f v ps hfd hvp
    obtain ⟨hcne, hcnt, -⟩ := clauseOK_ne c (ps.length + 1) hcok
    obtain ⟨cl', hrec, hsnd, hok⟩ := ih x (ps ++ [v])
      (fun e he => hk e (List.mem_cons_of_mem _ he))
      (fun e he => hv e (List.mem_cons_of_mem _ he))
    refine ⟨(c, ps.length + 1) :: cl', ?_, ?_, ?_⟩
    · have hlen : ((f, v) :: tl).length + x = (tl.length + x) + 1 := by
        simp only [List.length_cons]
        omega
      rw [hlen, pqoE_prim_step f v tl (tl.length + x) ps hsd hdot hvp]
      rw [hceq]
      show (do
        match ← pqoEntries (tl.length + x) tl "data" "" (ps ++ [v]) with
        | PqRes.shortFalse ps' => pure (PqRes.shortFalse ps')
        | PqRes.collected cl it ps' =>
          if c ≠ "" && c ≠ "TRUE" then pure (PqRes.collected (c :: cl) it ps')
          else pure (PqRes.collected cl it ps')) = _
      rw [hrec]
      have hcond : (decide (c ≠ "") && decide (c ≠ "TRUE")) = true := by
        rw [decide_eq_true hcne, decide_eq_true hcnt]
        rfl
      show (if (decide (c ≠ "") && decide (c ≠ "TRUE")) = true then
          Except.ok (PqRes.collected (c :: cl'.map Prod.fst) false ((ps ++ [v]) ++ tl.map Prod.snd))
        else Except.ok (PqRes.collected (cl'.map Prod.fst) false ((ps ++ [v]) ++ tl.map Prod.snd))) = _
      rw [hcond]
      simp [List.append_assoc]
    · simp only [List.map_cons]
      rw [hsnd]
      simp only [List.length_append, List.length_cons]
      rw [List.range'_succ]
      simp
    · intro p hp
      rcases List.mem_cons.mp hp with h | h
      · rw [h]; exact hcok
      · exact hok p h

theorem contains_eq_false_of (l : List String) (a : String) (h : ∀ s ∈ l, s ≠ a) :
    l.contains a = false := by
  induction l with
  | nil => rfl
  | cons x t ih =>
    rw [List.contains_cons]
    rw [ih (fun s hs => h s (List.mem_cons_of_mem x hs))]
    rw [beq_eq_false_iff_ne.mpr (fun he => (h x (List.mem_cons_self x t)) he.symm)]
    rfl

theorem pQO_prim (entries : List (String × JVal)) (x : Nat) (hne : entries ≠ [])
    (hk : ∀ e ∈ entries, containsCh e.1 '$' = false ∧ containsCh e.1 '.' = false)
    (hv : ∀ e ∈ entries, isPrimVal e.2 = true) :
    ∃ cl : List (String × Nat),
      processQueryObject (entries.length + x + 1) entries "data" "" [] =
        .ok (joinSep " AND " (cl.map Prod.fst), entries.map Prod.snd) ∧
      cl.map Prod.snd = List.range' 1 entries.length ∧
      (∀ p ∈ cl, ClauseOK p.1 p.2) ∧ cl ≠ [] := by
  obtain ⟨cl, hrec, hsnd, hok⟩ := pqoE_prim entries x [] hk hv
  have hclne : cl ≠ [] := by
    intro he
    subst he
    have hlen := congrArg List.length hsnd
    simp [List.length_range'] at hlen
    exact hne (List.length_eq_zero.mp hlen.symm)
  obtain ⟨q, cl'', rfl⟩ : ∃ q cl'', cl = q :: cl'' := by
    cases cl with
    | nil => exact absurd rfl hclne
    | cons q t => exact ⟨q, t, rfl⟩
  refine ⟨q :: cl'', ?_, hsnd, hok, hclne⟩
  rw [pqo_succ, hrec]
  have hfc : ((q :: cl'').map Prod.fst).contains "FALSE" = false := by
    refine contains_eq_false_of _ _ (fun s hs => ?_)
    obtain ⟨p, hp, rfl⟩ := List.mem_map.mp hs
    exact (clauseOK_ne p.1 p.2 (hok p hp)).2.2
  have hfilter : ((q :: cl'').map Prod.fst).filter
      (fun c => decide (c ≠ "") && decide (c ≠ "TRUE")) = (q :: cl'').map Prod.fst := by
    rw [List.filter_eq_self]
    intro a ha
    obtain ⟨p, hp, rfl⟩ := List.mem_map.mp ha
    obtain ⟨h1, h2, -⟩ := clauseOK_ne p.1 p.2 (hok p hp)
    rw [decide_eq_true h1, decide_eq_true h2]
    rfl
  show (if ((q :: cl'').map Prod.fst).contains "FALSE" = true then
      Except.ok ("FALSE", ([] : List JVal) ++ entries.map Prod.snd)
    else if (((q :: cl'').map Prod.fst).filter
        (fun c => decide (c ≠ "") && decide (c ≠ "TRUE"))).isEmpty = true then
      Except.ok ("", ([] : List JVal) ++ entries.map Prod.snd)
    else
      Except.ok (joinSep " AND " (((q :: cl'').map Prod.fst).filter
        (fun c => decide (c ≠ "") && decide (c ≠ "TRUE"))),
        ([] : List JVal) ++ entries.map Prod.snd)) = _
  rw [hfc]
  rw [if_neg (by decide : ¬(false = true))]
  rw [hfilter]
  rfl

theorem length_le_psize (entries : List (String × JVal)) : entries.length ≤ psize entries := by
  induction entries with
  | nil => exact Nat.le_refl 0
  | cons e r ih =>
    obtain ⟨k, v⟩ := e
    show r.length + 1 ≤ 1 + qsize v + psize r
    omega

theorem joinSep_ne_empty (c : String) (rest : List String) (hc : c ≠ "") :
    joinSep " AND " (c :: rest) ≠ "" := by
  cases rest with
  | nil => exact hc
  | cons r t =>
    rw [joinSep_cons_cons]
    intro he
    have hdata := congrArg String.data he
    rw [String.data_append, String.data_append] at hdata
    have hlen := congrArg List.length hdata
    rw [List.length_append, List.length_append] at hlen
    simp at hlen

/-- Claim C1 (amended).  For every non-empty query of plain-field
equality entries (keys without `$` or `.`, primitive values), the
compiled WHERE fragment's `$N` tokens are exactly `[1, ..., n]` in
left-to-right order — one placeholder per parameter, every index in
range, order matching append order — and the parameter vector is the
entry values in entry order.  The original universal claim is refuted
by the counterexample: short-circuiting orphans already-appended
parameters, and a `$` inside a field name forges extra, out-of-range
tokens. -/
theorem C1_placeholder_discipline (entries : List (String × JVal)) (hne : entries ≠ [])
    (hk : ∀ e ∈ entries, containsCh e.1 '$' = false ∧ containsCh e.1 '.' = false)
    (hv : ∀ e ∈ entries, isPrimVal e.2 = true) :
    ∃ w, buildWhereClauseAndParams entries "data" =
        .ok ("WHERE " ++ w, entries.map Prod.snd) ∧
      phList ("WHERE " ++ w) = List.range' 1 entries.length ∧
      (entries.map Prod.snd).length = entries.length := by
  have hle : entries.length ≤ 4 * psize entries + 7 :=
    le_trans (length_le_psize entries) (by omega)
  have hfuel : convFuel entries =
      entries.length + (4 * psize entries + 7 - entries.length) + 1 := by
    unfold convFuel
    omega
  obtain ⟨cl, hrec, hsnd, hok, hclne⟩ :=
    pQO_prim entries (4 * psize entries + 7 - entries.length) hne hk hv
  obtain ⟨q, cl'', rfl⟩ : ∃ q cl'', cl = q :: cl'' := by
    cases cl with
    | nil => exact absurd rfl hclne
    | cons q t => exact ⟨q, t, rfl⟩
  have hqne : q.1 ≠ "" := (clauseOK_ne q.1 q.2 (hok q (by simp))).1
  have hwne : joinSep " AND " ((q :: cl'').map Prod.fst) ≠ "" := by
    simp only [List.map_cons]
    exact joinSep_ne_empty q.1 _ hqne
  have hbw : buildWhereClause entries "data" =
      .ok (joinSep " AND " ((q :: cl'').map Prod.fst), entries.map Prod.snd) := by
    obtain ⟨e0, tl0, he⟩ : ∃ e0 tl0, entries = e0 :: tl0 := by
      cases entries with
      | nil => exact absurd rfl hne
      | cons e0 tl0 => exact ⟨e0, tl0, rfl⟩
    rw [he] at hfuel hrec ⊢
    show processQueryObject (convFuel (e0 :: tl0)) (e0 :: tl0) "data" "" [] = _
    rw [hfuel]
    exact hrec
  refine ⟨joinSep " AND " ((q :: cl'').map Prod.fst), ?_, ?_, by simp⟩
  · unfold buildWhereClauseAndParams
    rw [hbw]
    show Except.ok ((if joinSep " AND " ((q :: cl'').map Prod.fst) ≠ "" then
        "WHERE " ++ joinSep " AND " ((q :: cl'').map Prod.fst) else ""),
      entries.map Prod.snd) = _
    rw [if_pos hwne]
  · have hpre : phList ("WHERE " ++ joinSep " AND " ((q :: cl'').map Prod.fst)) =
        phList (joinSep " AND " ((q :: cl'').map Prod.fst)) := by
      show phSuffix ("WHERE " ++ joinSep " AND " ((q :: cl'').map Prod.fst)).data none = _
      rw [String.data_append, phSuffix_append]
      rw [show runP ("WHERE " : String).data none = ([], none) from rfl]
      rfl
    rw [hpre, joinSep_phList (q :: cl'') hclne hok, hsnd]

/-- witness for C1 at the query `\x7ba: "x", b: 2\x7d`. -/
theorem C1_placeholder_discipline_witness :
    ∃ w, buildWhereClauseAndParams [("a", JVal.str "x"), ("b", JVal.num 2)] "data" =
        .ok ("WHERE " ++ w,
          ([("a", JVal.str "x"), ("b", JVal.num 2)] : List (String × JVal)).map Prod.snd) ∧
      phList ("WHERE " ++ w) =
        List.range' 1 ([("a", JVal.str "x"), ("b", JVal.num 2)] : List (String × JVal)).length ∧
      (([("a", JVal.str "x"), ("b", JVal.num 2)] : List (String × JVal)).map Prod.snd).length =
        ([("a", JVal.str "x"), ("b", JVal.num 2)] : List (String × JVal)).length :=
  C1_placeholder_discipline [("a", JVal.str "x"), ("b", JVal.num 2)]
    (by decide) (by decide) (by decide)

/-- counterexample to C1 as stated: `\x7ba: 1, b: \x7b$in: []\x7d\x7d`
compiles to `WHERE FALSE` with zero placeholders but one appended
parameter (the `$in: []` short circuit orphans it), and the field name
`a$9` puts a spurious `$9` token in the SQL, so the emitted text
carries two tokens `[9, 1]` for one parameter and the index 9 is out of
range. -/
theorem C1_counterexample :
    buildSelectQueryAndParams "t" [("a", JVal.num 1), ("b", JVal.obj [("$in", JVal.arr [])])] {} =
      .ok ("SELECT \"data\" FROM \"t\" WHERE FALSE", [JVal.num 1]) ∧
    phList "SELECT \"data\" FROM \"t\" WHERE FALSE" = [] ∧
    ([] : List Nat).length ≠ ([JVal.num 1] : List JVal).length ∧
    buildWhereClauseAndParams [("a$9", JVal.num 1)] "data" =
      .ok ("WHERE (data->>'a$9')::integer = $1", [JVal.num 1]) ∧
    phList "WHERE (data->>'a$9')::integer = $1" = [9, 1] ∧
    ¬(9 ≤ ([JVal.num 1] : List JVal).length) :=
  ⟨by decide, by decide, by decide, by decide, by decide, by decide⟩


/-- Claim C6 (amended).  `$where` is a hard error only when it is met
as a document-scope key in the entry walk: processing a query whose
current entry is `$where` aborts with `whereUnsupported`.  As a field
operator inside an operator object, `$where` is NOT an error: like
`$search` and any unknown operator, the comparison handler silently
returns the empty fragment without raising. -/
theorem C6_where_scope_behavior (fuel : Nat) (ap jp : String) (ro : Option JVal)
    (ps : List JVal) (jf pp : String) (rest : List (String × JVal)) :
    (∀ v, pqoEntries (fuel + 1) (("$where", v) :: rest) jf pp ps =
      .error .whereUnsupported) ∧
    (∀ v, handleComparisonOperator (fuel + 1) "$where" v ap jp ro ps = .ok ("", ps)) ∧
    (∀ v, handleComparisonOperator (fuel + 1) "$search" v ap jp ro ps = .ok ("", ps)) ∧
    (∀ v, handleComparisonOperator (fuel + 1) "$frobnicate" v ap jp ro ps = .ok ("", ps)) :=
  ⟨fun _ => by rw [pqoE_cons]; rfl, fun _ => rfl, fun _ => rfl, fun _ => rfl⟩

/-- counterexample to C6 as stated: `\x7ba: \x7b$where: "x"\x7d\x7d`
contains `$where` as a field operator yet compiles without error to the
empty fragment, `\x7ba: \x7b$where: "x", $gt: 3\x7d\x7d` compiles the
sibling `$gt` and drops `$where` silently, and
`\x7b$or: [], $where: "x"\x7d` holds `$where` at document scope yet
short-circuits to FALSE before the `$where` entry is reached — none of
the three aborts.  Only the direct document-scope form errors. -/
theorem C6_where_counterexample :
    buildWhereClause [("$where", JVal.str "x")] "data" = .error .whereUnsupported ∧
    buildWhereClause [("a", JVal.obj [("$where", JVal.str "x")])] "data" = .ok ("", []) ∧
    buildWhereClause [("a", JVal.obj [("$where", JVal.str "x"), ("$gt", JVal.num 3)])] "data" =
      .ok ("((data->>'a')::numeric > 3)", []) ∧
    buildWhereClause [("$or", JVal.arr []), ("$where", JVal.str "x")] "data" =
      .ok ("FALSE", []) :=
  ⟨by decide, by decide, by decide, by decide⟩

/-- Claim C2 (amended).  The parameterized operators never inline the
user string: equality's SQL text is independent of the string operand,
and `$ne`/`$in`/`$nin` emit only the `$N` placeholder, the string
travelling in the parameter vector.  The inlining comparison operators
`$gt`/`$gte`/`$lt`/`$lte` and `$regex` inline the user string as a
single-quoted literal with every embedded single quote doubled
(`replCh` with two quotes).  The exceptions the original claim missed —
`$all` bodies and update-path literal bodies, which are inlined as raw
`JSON.stringify` text without quote doubling — are separately
exhibited by the counterexample. -/
theorem C2_parameterized_and_quote_doubled (fuel : Nat) (ap jp : String)
    (ro : Option JVal) (ps : List JVal) :
    (∀ s t : String,
      (createEqualityCondition ap jp (.str s) ps).1 =
        (createEqualityCondition ap jp (.str t) ps).1) ∧
    (∀ s, handleComparisonOperator (fuel + 1) "$ne" (.str s) ap jp ro ps =
      .ok (ap ++ " IS DISTINCT FROM " ++ ("$" ++ natStr (ps.length + 1)), ps ++ [.str s])) ∧
    (∀ s, handleComparisonOperator (fuel + 1) "$in" (.arr [.str s]) "data->>'f'" "data->'f'" ro [] =
      .ok ("data->>'f' = ANY($1)", [.arr [.str s]])) ∧
    (∀ s, handleComparisonOperator (fuel + 1) "$nin" (.arr [.str s]) "data->>'f'" "data->'f'" ro [] =
      .ok ("data->>'f' != ALL($1)", [.arr [.str s]])) ∧
    (∀ s, handleComparisonOperator (fuel + 1) "$gt" (.str s) ap jp ro ps =
      .ok (ap ++ " " ++ ">" ++ " " ++ ("'" ++ replCh '\'' ['\'', '\''] s ++ "'"), ps)) ∧
    (∀ s, handleComparisonOperator (fuel + 1) "$gte" (.str s) ap jp ro ps =
      .ok (ap ++ " " ++ ">=" ++ " " ++ ("'" ++ replCh '\'' ['\'', '\''] s ++ "'"), ps)) ∧
    (∀ s, handleComparisonOperator (fuel + 1) "$lt" (.str s) ap jp ro ps =
      .ok (ap ++ " " ++ "<" ++ " " ++ ("'" ++ replCh '\'' ['\'', '\''] s ++ "'"), ps)) ∧
    (∀ s, handleComparisonOperator (fuel + 1) "$lte" (.str s) ap jp ro ps =
      .ok (ap ++ " " ++ "<=" ++ " " ++ ("'" ++ replCh '\'' ['\'', '\''] s ++ "'"), ps)) ∧
    (∀ p, handleComparisonOperator (fuel + 1) "$regex" (.arr [.str p, .str ""]) ap jp ro ps =
      .ok (ap ++ " " ++ "~" ++ " " ++ ("'" ++ replCh '\'' ['\'', '\''] p ++ "'"), ps)) :=
  ⟨fun _ _ => rfl, fun _ => rfl, fun _ => rfl, fun _ => rfl, fun _ => rfl,
   fun _ => rfl, fun _ => rfl, fun _ => rfl, fun _ => rfl⟩

/-- counterexample to C2 as stated: the user string `a'b` appears with
its single quote NOT doubled both in the `$all` containment literal
(raw JSON.stringify body) and in the update JSONB path literal built by
`buildJsonbPath`. -/
theorem C2_all_and_path_counterexample :
    handleComparisonOperator 5 "$all" (.arr [.str "a'b"]) "data->>'x'" "data->'x'" none [] =
      .ok ("data->'x' @> '[\"a'b\"]'::jsonb", []) ∧
    ("data->'x' @> '[\"a'b\"]'::jsonb" : String) ≠ "data->'x' @> '[\"a''b\"]'::jsonb" ∧
    buildJsonbPath "a'b" = "'\x7b'\"a'b\"'\x7d'" ∧
    ("'\x7b'\"a'b\"'\x7d'" : String) ≠ "'\x7b'\"a''b\"'\x7d'" :=
  ⟨by decide, by decide, by decide, by decide⟩

/-- Claim C5 (amended).  For every non-empty filter whose WHERE fragment
compiles to `(w, pw)` and update document whose SET expression compiles
to `(e, pu)`: `updateOne` emits `UPDATE "<table>" SET <json> =
<renumbered e> <w>` and `updateMany` emits `UPDATE "<table>" SET data =
<renumbered e> <w>` (the literal column `data`, not the configured json
field), both with parameter vector `pw ++ pu` and the WHERE fragment's
placeholders untouched; the renumbering shifts each `$N` of the SET
expression by `pw.length`, as the concrete shift by 2 illustrates.
Note the emitted text is `jsTrim`med, so when `w` is empty the statement
carries no WHERE clause at all. -/
theorem C5_update_renumbered_statement (name jsonField : String)
    (filter ops : List (String × JVal)) (w : String) (pw : List JVal)
    (e : String) (pu : List JVal)
    (hne : filter ≠ [])
    (hw : buildWhereClauseAndParams filter jsonField = .ok (w, pw))
    (hu : buildUpdateSetExpressionAndParams ops jsonField = some (e, pu)) :
    updateOnePlan name jsonField filter ops =
      .ok (.runUpdate (jsTrim ("UPDATE \"" ++ name ++ "\" " ++
        ("SET " ++ jsonField ++ " = " ++ renumberPlaceholders e pw.length) ++ " " ++ w))
        (pw ++ pu)) ∧
    updateManyPlan name jsonField filter ops =
      .ok (.runUpdate (jsTrim ("UPDATE \"" ++ name ++ "\" SET data = " ++
        renumberPlaceholders e pw.length ++ " " ++ w)) (pw ++ pu)) ∧
    renumberPlaceholders "jsonb_set($1::jsonb, $2, $3)" 2 = "jsonb_set($3::jsonb, $4, $5)" := by
  cases filter with
  | nil => exact absurd rfl hne
  | cons hd tl =>
    refine ⟨?_, ?_, by decide⟩
    · unfold updateOnePlan
      simp only [List.isEmpty_cons]
      rw [if_neg (by decide : ¬(false = true))]
      rw [hw, hu]
      rfl
    · unfold updateManyPlan
      simp only [List.isEmpty_cons]
      rw [if_neg (by decide : ¬(false = true))]
      rw [hw, hu]
      rfl

/-- witness for C5 at table `users`, json field `doc`, filter
`\x7ba: 1\x7d`, update `\x7b$set: \x7bb: 2\x7d\x7d`. -/
theorem C5_update_renumbered_statement_witness :
    updateOnePlan "users" "doc" [("a", JVal.num 1)] [("$set", JVal.obj [("b", JVal.num 2)])] =
      .ok (.runUpdate (jsTrim ("UPDATE \"" ++ "users" ++ "\" " ++
        ("SET " ++ "doc" ++ " = " ++
          renumberPlaceholders "jsonb_set_lax(\"doc\"::jsonb, '\x7b'\"b\"'\x7d', $1::jsonb, true)"
            ([JVal.num 1] : List JVal).length) ++ " " ++ "WHERE (doc->>'a')::integer = $1"))
        ([JVal.num 1] ++ [JVal.str "2"])) ∧
    updateManyPlan "users" "doc" [("a", JVal.num 1)] [("$set", JVal.obj [("b", JVal.num 2)])] =
      .ok (.runUpdate (jsTrim ("UPDATE \"" ++ "users" ++ "\" SET data = " ++
        renumberPlaceholders "jsonb_set_lax(\"doc\"::jsonb, '\x7b'\"b\"'\x7d', $1::jsonb, true)"
          ([JVal.num 1] : List JVal).length ++ " " ++ "WHERE (doc->>'a')::integer = $1"))
        ([JVal.num 1] ++ [JVal.str "2"])) ∧
    renumberPlaceholders "jsonb_set($1::jsonb, $2, $3)" 2 = "jsonb_set($3::jsonb, $4, $5)" :=
  C5_update_renumbered_statement "users" "doc" [("a", JVal.num 1)]
    [("$set", JVal.obj [("b", JVal.num 2)])] "WHERE (doc->>'a')::integer = $1" [JVal.num 1]
    "jsonb_set_lax(\"doc\"::jsonb, '\x7b'\"b\"'\x7d', $1::jsonb, true)" [JVal.str "2"]
    (by decide) (by decide) (by decide)

/-- counterexample to C5 as stated: with the json field configured as
`doc`, `updateMany` still emits `SET data = ...` (only the WHERE side
uses `doc`), so the claimed `SET <json>` shape is wrong for it; and a
non-empty filter whose operators all compile to empty fragments (here
`$search`) yields an `UPDATE` with no `WHERE` clause at all, against
the claimed unconditional `WHERE <frag>` shape. -/
theorem C5_set_target_counterexample :
    updateManyPlan "t" "doc" [("a", JVal.num 1)] [("$set", JVal.obj [("b", JVal.num 2)])] =
      .ok (.runUpdate
        "UPDATE \"t\" SET data = jsonb_set_lax(\"doc\"::jsonb, '\x7b'\"b\"'\x7d', $2::jsonb, true) WHERE (doc->>'a')::integer = $1"
        [JVal.num 1, JVal.str "2"]) ∧
    updateManyPlan "t" "doc" [("a", JVal.num 1)] [("$set", JVal.obj [("b", JVal.num 2)])] ≠
      .ok (.runUpdate
        "UPDATE \"t\" SET doc = jsonb_set_lax(\"doc\"::jsonb, '\x7b'\"b\"'\x7d', $2::jsonb, true) WHERE (doc->>'a')::integer = $1"
        [JVal.num 1, JVal.str "2"]) ∧
    ([("x", JVal.obj [("$search", JVal.str "y")])] : List (String × JVal)) ≠ [] ∧
    updateOnePlan "t" "data" [("x", JVal.obj [("$search", JVal.str "y")])]
        [("$set", JVal.obj [("b", JVal.num 2)])] =
      .ok (.runUpdate
        "UPDATE \"t\" SET data = jsonb_set_lax(\"data\"::jsonb, '\x7b'\"b\"'\x7d', $1::jsonb, true)"
        [JVal.str "2"]) := by
  refine ⟨by decide, by decide, by decide, by decide⟩

/-- Claim C10.  In primitive-mode `$elemMatch` (every top-level key of
the operand starts with `$`, none is a logical operator), only the
first operator key is compiled against the element alias: the result —
SQL and parameters — is identical to compiling the operand truncated to
its first key, so any further operator keys are silently ignored. -/
theorem C10_elemMatch_uses_only_first_operator (fuel : Nat) (ap jp : String)
    (ro : Option JVal) (ps : List JVal) (k0 : String) (v0 : JVal)
    (rest : List (String × JVal))
    (hall : (((k0, v0) :: rest).map Prod.fst).all startsDollar = true)
    (hlog : (((k0, v0) :: rest).map Prod.fst).any isLogicalOp = false) :
    handleComparisonOperator (fuel + 1) "$elemMatch" (JVal.obj ((k0, v0) :: rest)) ap jp ro ps =
      handleComparisonOperator (fuel + 1) "$elemMatch" (JVal.obj [(k0, v0)]) ap jp ro ps := by
  have hall' := hall
  have hlog' := hlog
  simp only [List.map_cons, List.all_cons, Bool.and_eq_true] at hall'
  simp only [List.map_cons, List.any_cons, Bool.or_eq_false_iff] at hlog'
  have h2 : ((((k0, v0) :: rest).map Prod.fst).all startsDollar &&
      !((((k0, v0) :: rest).map Prod.fst).any isLogicalOp)) = true := by
    rw [hall, hlog]; rfl
  have h3 : (([(k0, v0)].map Prod.fst).all startsDollar &&
      !(([(k0, v0)].map Prod.fst).any isLogicalOp)) = true := by
    simp only [List.map_cons, List.map_nil, List.all_cons, List.all_nil, List.any_cons,
      List.any_nil, hall'.1, hlog'.1, Bool.and_true, Bool.or_false, Bool.not_false]
  rw [hc_succ, hc_succ]
  simp only [if_neg (show ¬("$elemMatch" = "$eq") by decide),
    if_neg (show ¬("$elemMatch" = "$ne") by decide),
    if_neg (show ¬("$elemMatch" = "$gt") by decide),
    if_neg (show ¬("$elemMatch" = "$gte") by decide),
    if_neg (show ¬("$elemMatch" = "$lt") by decide),
    if_neg (show ¬("$elemMatch" = "$lte") by decide),
    if_neg (show ¬("$elemMatch" = "$in") by decide),
    if_neg (show ¬("$elemMatch" = "$nin") by decide),
    if_neg (show ¬("$elemMatch" = "$exists") by decide),
    if_neg (show ¬("$elemMatch" = "$regex") by decide),
    if_neg (show ¬("$elemMatch" = "$mod") by decide),
    if_neg (show ¬("$elemMatch" = "$size") by decide),
    if_neg (show ¬("$elemMatch" = "$all") by decide),
    if_pos (show ("$elemMatch" = "$elemMatch") by rfl)]
  simp only [h2, h3]
  rfl

/-- witness for C10 at `\x7b$elemMatch: \x7b$gte: 5, $lt: 10\x7d\x7d`:
the `$lt: 10` key contributes nothing. -/
theorem C10_elemMatch_uses_only_first_operator_witness :
    handleComparisonOperator (30 + 1) "$elemMatch"
        (JVal.obj [("$gte", JVal.num 5), ("$lt", JVal.num 10)])
        "data->>'scores'" "data->'scores'" none [] =
      handleComparisonOperator (30 + 1) "$elemMatch" (JVal.obj [("$gte", JVal.num 5)])
        "data->>'scores'" "data->'scores'" none [] :=
  C10_elemMatch_uses_only_first_operator 30 "data->>'scores'" "data->'scores'" none []
    "$gte" (JVal.num 5) [("$lt", JVal.num 10)] (by decide) (by decide)

/-- Claim C9.  Every destructive entry point refuses the empty filter
before issuing any statement: `remove` with an empty query is a hard
error (`emptyDestructive`), and `updateOne`/`updateMany` with an empty
filter short-circuit to the no-op result (matched 0, modified 0)
without ever building or issuing an UPDATE, for every table name, json
field, update-operator document, soft-delete mode and timestamp. -/
theorem C9_empty_destructive_guards (name jsonField : String)
    (ops : List (String × JVal)) (softDelete : Bool) (now : Rat) :
    removePlan name jsonField softDelete now [] = .error .emptyDestructive ∧
    updateOnePlan name jsonField [] ops = .ok .noop ∧
    updateManyPlan name jsonField [] ops = .ok .noop :=
  ⟨rfl, rfl, rfl⟩

/-- Claim C8.  The equality condition obeys the §4.2 case analysis:
null emits `(jsonpath IS NULL OR jsonpath = 'null'::jsonb)` with no
parameter; the empty object emits `jsonpath::jsonb = '\x7b\x7d'::jsonb`
with no parameter; an array appends one parameter and emits
`jsonpath::jsonb = $N::jsonb`; a boolean emits
`(accesspath)::boolean = $N`; a number emits `(accesspath)::<cast> = $N`
where the cast is `integer` exactly when the value is a whole number
(den = 1, i.e. it equals some integer); any other value (string,
undefined, non-empty object) emits `accesspath = $N`. -/
theorem C8_equality_condition_cases (ap jp : String) (ps : List JVal) :
    createEqualityCondition ap jp .jnull ps =
      ("(" ++ jp ++ " IS NULL OR " ++ jp ++ " = 'null'::jsonb)", ps) ∧
    createEqualityCondition ap jp (.obj []) ps = (jp ++ "::jsonb = '{}'::jsonb", ps) ∧
    (∀ xs, createEqualityCondition ap jp (.arr xs) ps =
      (jp ++ "::jsonb = " ++ ("$" ++ natStr (ps.length + 1)) ++ "::jsonb", ps ++ [.arr xs])) ∧
    (∀ b, createEqualityCondition ap jp (.boolean b) ps =
      ("(" ++ ap ++ ")::boolean = " ++ ("$" ++ natStr (ps.length + 1)), ps ++ [.boolean b])) ∧
    (∀ q : ℚ, createEqualityCondition ap jp (.num q) ps =
      ("(" ++ ap ++ ")::" ++ (if q.den = 1 then "integer" else "numeric") ++ " = " ++
        ("$" ++ natStr (ps.length + 1)), ps ++ [.num q])) ∧
    (∀ q : ℚ, q.den = 1 ↔ ∃ n : ℤ, q = (n : ℚ)) ∧
    (∀ s, createEqualityCondition ap jp (.str s) ps =
      (ap ++ " = " ++ ("$" ++ natStr (ps.length + 1)), ps ++ [.str s])) ∧
    createEqualityCondition ap jp .undef ps =
      (ap ++ " = " ++ ("$" ++ natStr (ps.length + 1)), ps ++ [.undef]) ∧
    (∀ k v rest, createEqualityCondition ap jp (.obj ((k, v) :: rest)) ps =
      (ap ++ " = " ++ ("$" ++ natStr (ps.length + 1)), ps ++ [.obj ((k, v) :: rest)])) := by
  refine ⟨rfl, rfl, fun xs => rfl, fun b => rfl, fun q => rfl, fun q => ?_,
    fun s => rfl, rfl, fun k v rest => rfl⟩
  constructor
  · intro h
    exact ⟨q.num, ((Rat.den_eq_one_iff q).mp h).symm⟩
  · rintro ⟨n, rfl⟩
    exact Rat.den_intCast n

/-- Claim C3.  `build_update({$set: {wallet: 15, "profile.level": 5}, $inc:
{loginCount: 1}})` spliced by `updateOne` after the filter `{email: "x@y"}`
is claimed to produce exactly
`UPDATE "users" SET data = jsonb_set_lax(jsonb_set_lax(jsonb_set_lax(data::jsonb, '\x7b"wallet"\x7d', $2::jsonb, true)::jsonb, '\x7b"profile","level"\x7d', $3::jsonb, true)::jsonb, '\x7b"loginCount"\x7d', to_jsonb(COALESCE((data->'loginCount')::numeric, 0) + $4::numeric), true) WHERE data->>'email' = $1`
with params `["x@y", "15", "5", 1]`, JSONB path literals shaped
`'{"a","b"}'`.  The code instead starts the fold from the quoted
identifier `"data"` and its `#buildJsonbPath` template emits the path
literal as `'{'"wallet"'}'` — with stray inner single quotes, which is
not even parseable SQL — contradicting both the function's own comment
(\"Return the literal directly, wrapped in single quotes\") and the
intended `'{"wallet"}'` shape.  The parameters and placeholder indices
do match the claim.  This theorem evaluates the embedded `updateOne`
pipeline at the claim's input and shows the emitted text differs from
the claimed text exactly there. -/
theorem C3_update_path_literal_bug :
    updateOnePlan "users" "data" [("email", str "x@y")]
      [("$set", obj [("wallet", num 15), ("profile.level", num 5)]),
       ("$inc", obj [("loginCount", num 1)])] =
      .ok (.runUpdate
        ("UPDATE \"users\" SET data = jsonb_set_lax(jsonb_set_lax(jsonb_set_lax(\"data\"::jsonb, '\x7b'\"wallet\"'\x7d', $2::jsonb, true)::jsonb, '\x7b'\"profile\",\"level\"'\x7d', $3::jsonb, true)::jsonb, '\x7b'\"loginCount\"'\x7d', to_jsonb(COALESCE((\"data\"->'loginCount')::numeric, 0) + $4::numeric), true) WHERE data->>'email' = $1")
        [str "x@y", str "15", str "5", num 1]) ∧
    buildJsonbPath "wallet" = "'\x7b'\"wallet\"'\x7d'" ∧
    buildJsonbPath "profile.level" = "'\x7b'\"profile\",\"level\"'\x7d'" ∧
    ("'\x7b'\"wallet\"'\x7d'" : String) ≠ "'\x7b\"wallet\"\x7d'" ∧
    updateOnePlan "users" "data" [("email", str "x@y")]
      [("$set", obj [("wallet", num 15), ("profile.level", num 5)]),
       ("$inc", obj [("loginCount", num 1)])] ≠
      .ok (.runUpdate
        ("UPDATE \"users\" SET data = jsonb_set_lax(jsonb_set_lax(jsonb_set_lax(data::jsonb, '\x7b\"wallet\"\x7d', $2::jsonb, true)::jsonb, '\x7b\"profile\",\"level\"\x7d', $3::jsonb, true)::jsonb, '\x7b\"loginCount\"\x7d', to_jsonb(COALESCE((data->'loginCount')::numeric, 0) + $4::numeric), true) WHERE data->>'email' = $1")
        [str "x@y", str "15", str "5", num 1]) := by
  refine ⟨by decide, by decide, by decide, by decide, by decide⟩

/-- Claim C4.  `build_select("mixed", {values: {$in: [1, "two", null,
3.0]}})` is claimed to emit three typed disjuncts with params
`[[1], [3.0], ["two"]]` (the repository's own unit test asserts the
same).  At runtime the JS literal `3.0` is the number `3`
(`Number.isInteger(3.0)` is `true` and `String(3.0)` is `"3"`, which
contains no `.`), so `#handleComparisonOperator` puts it into the
*integer* group: the code emits only an integer and a string disjunct,
with params `[[1, 3], ["two"]]`, and double-wraps the non-null
disjunction — contradicting the test's expected SQL and params.  This
theorem evaluates the embedded compiler at the failing input and shows
the emitted SQL and params differ from the claimed ones. -/
theorem C4_mixed_in_grouping_bug :
    buildSelectQueryAndParams "mixed"
      [("values", obj [("$in", arr [num 1, str "two", jnull, num 3])])] =
      .ok ("SELECT \"data\" FROM \"mixed\" WHERE ((((data->>'values')::integer = ANY($1) OR data->>'values' = ANY($2))) OR (data->'values' IS NULL OR data->'values' = 'null'::jsonb))",
        [arr [num 1, num 3], arr [str "two"]]) ∧
    buildSelectQueryAndParams "mixed"
      [("values", obj [("$in", arr [num 1, str "two", jnull, num 3])])] ≠
      .ok ("SELECT \"data\" FROM \"mixed\" WHERE (((data->>'values')::integer = ANY($1) OR (data->>'values')::numeric = ANY($2) OR data->>'values' = ANY($3)) OR (data->'values' IS NULL OR data->'values' = 'null'::jsonb))",
        [arr [num 1], arr [num 3], arr [str "two"]]) := by
  refine ⟨by decide, by decide⟩

end PgOrm
